import Mathlib

/-!
# A shallow embedding of the Natron inter-process LRU cache (Engine/Cache.cpp)

This file embeds the data model and the operations of the bucketed,
LRU-bounded cache implemented in `src/Engine/Cache.cpp` (the persistent
variant, `persistent = true`) and proves or refutes the specified
properties about them.

Modelling conventions:
* C++ 64-bit unsigned integers (`U64`, `std::size_t`) are `Nat` with
  arithmetic reduced `% 2 ^ 64` exactly where the C++ wraps.
* Pointers into the ToC memory segment are replaced by keys: an entry is
  addressed by its 64-bit hash, so `bip::offset_ptr<LRUListNode>` becomes
  `Option Nat` naming the entry whose intrusive `lruNode` is pointed at, and
  the entries map becomes an association list from hash to header.
* The interprocess locks serialise every mutating operation on a bucket;
  the embedding therefore models each locked section as one atomic step.
* The opaque payload capability (`toMemorySegment` / `fromMemorySegment` of
  `CacheEntryBase`, out of scope per the specification) is a parameter: its
  calls are modelled by the list of property writes it performs and by its
  return code.
-/

namespace NatronCache

set_option maxRecDepth 2000

/-- Modulus of C++ 64-bit unsigned arithmetic. -/
def U64MOD : Nat := 2 ^ 64

/-- `#define NATRON_CACHE_BUCKETS_N_DIGITS 2` (Cache.cpp:92). -/
def NATRON_CACHE_BUCKETS_N_DIGITS : Nat := 2

/-- `#define NATRON_CACHE_BUCKETS_COUNT 256` (Cache.cpp:93). -/
def NATRON_CACHE_BUCKETS_COUNT : Nat := 256

/-- `#define NATRON_NUM_TILES_PER_BUCKET_FILE 256` (Cache.cpp:114). -/
def NATRON_NUM_TILES_PER_BUCKET_FILE : Nat := 256

/-- `#define NATRON_NUM_TILES_PER_FILE` (Cache.cpp:115). -/
def NATRON_NUM_TILES_PER_FILE : Nat :=
  NATRON_NUM_TILES_PER_BUCKET_FILE * NATRON_CACHE_BUCKETS_COUNT

/-- Tile size in bytes. `NATRON_TILE_SIZE_BYTES` is defined in a header that
is not part of the provided sources; each 1 GiB storage file holds
`NATRON_NUM_TILES_PER_FILE = 65536` tiles, giving 16 KiB per tile. Only the
fact that it is one fixed constant matters to the proofs below. -/
def NATRON_TILE_SIZE_BYTES : Nat := 16384

/-- Wrapping 64-bit addition (C++ `size_t` addition). -/
def addU64 (a b : Nat) : Nat := (a + b) % U64MOD

/-- Wrapping 64-bit subtraction (C++ `size_t` subtraction). -/
def subU64 (a b : Nat) : Nat := (a + (U64MOD - b % U64MOD)) % U64MOD

/-- Shallow embedding of `getBucketStorageIndex<level>` (Cache.cpp:738-752):
`mask = 0xffffffffffffffff >> (N_DIGITS * level * 4)`,
`index = hash & mask`, then
`index >>= 64 - N_DIGITS * (level + 1) * 4`. -/
def getBucketStorageIndex (level : Nat) (hash : Nat) : Nat :=
  let mask : Nat := (U64MOD - 1) >>> (NATRON_CACHE_BUCKETS_N_DIGITS * level * 4)
  let index : Nat := hash &&& mask
  index >>> (64 - NATRON_CACHE_BUCKETS_N_DIGITS * (level + 1) * 4)

/-- `CacheBase::getBucketCacheBucketIndex` (Cache.cpp:3734-3738):
`return getBucketStorageIndex<7>(hash);`. -/
def getBucketCacheBucketIndex (hash : Nat) : Nat :=
  getBucketStorageIndex 7 hash

/-- `getTileIndex` (Cache.cpp:1801-1806), tile-index half: the left-most 32
bits of an encoded tile id, `*tileIndex = encoded >> 32`. -/
def tileIndexOfEncoded (encoded : Nat) : Nat := encoded >>> 32

/-- `getTileIndex` (Cache.cpp:1801-1806), file-index half: the right-most 32
bits, `*fileIndex = encoded` truncated to `U32`. -/
def fileIndexOfEncoded (encoded : Nat) : Nat := encoded % 2 ^ 32

/-- Tile id encoding used by `CachePrivate::createTileStorage`
(Cache.cpp:3048): `encodedIndex = (i << 32) | fileIndex`. -/
def encodeTileIndex (tileIndex fileIndex : Nat) : Nat :=
  (tileIndex <<< 32) ||| fileIndex

/-- `MemorySegmentEntryHeaderBase::EntryStatusEnum` (Cache.cpp:638-650). -/
inductive EntryStatus
  | ready
  | null
  | pending
deriving DecidableEq, Repr

/-- `LRUListNode` (Cache.cpp:560-573). The `prev`/`next` offset pointers are
modelled by the hash key of the entry whose intrusive node is pointed at. -/
structure LRUListNode where
  prev : Option Nat
  next : Option Nat
  hash : Nat
deriving DecidableEq, Repr

/-- `MemorySegmentEntryHeader<true>` (Cache.cpp:633-699): entry status, the
computing thread's magic, billing size, intrusive LRU node, owned tile ids,
plug-in id and the serialized property list. Property values are modelled as
64-bit numbers, which covers the hash property the proofs are about. -/
structure MemorySegmentEntryHeader where
  size : Nat
  status : EntryStatus
  computeThreadMagic : Nat
  lruNode : LRUListNode
  tileIndices : List Nat
  pluginID : String
  properties : List (String × Nat)
deriving DecidableEq, Repr

/-- `CacheBucketIPCData<true>` (Cache.cpp:759-817): per-bucket LRU endpoints,
byte count, entry map and free-tile set. The ordered interprocess containers
are modelled by lists with set/map semantics. -/
structure CacheBucketIPCData where
  lruListFront : Option Nat
  lruListBack : Option Nat
  size : Nat
  entriesMap : List (Nat × MemorySegmentEntryHeader)
  freeTiles : List Nat
deriving DecidableEq, Repr

/-- The whole cache: the 256 buckets (total function on indices; only
indices `< 256` are used), the number of tile storage files, the configured
maximum size and the tile-storage switch (`CachePrivate`, Cache.cpp). -/
structure CacheState where
  buckets : Nat → CacheBucketIPCData
  tilesStorageCount : Nat
  maximumSize : Nat
  useTileStorage : Bool

/-- An empty bucket, as produced by the `CacheBucketIPCData` constructor
(Cache.cpp:795-804). -/
def emptyBucket : CacheBucketIPCData :=
  { lruListFront := none
    lruListBack := none
    size := 0
    entriesMap := []
    freeTiles := [] }

/-- Pointwise update of the bucket array at one index. -/
def updBucket (bs : Nat → CacheBucketIPCData) (i : Nat)
    (b : CacheBucketIPCData) : Nat → CacheBucketIPCData :=
  fun j => if j = i then b else bs j

/-- `EntriesMap::find` (used by `tryCacheLookupImpl`, Cache.cpp:1668-1677). -/
def mapFind? (l : List (Nat × MemorySegmentEntryHeader)) (h : Nat) :
    Option MemorySegmentEntryHeader :=
  match l with
  | [] => none
  | (k, e) :: t => if k = h then some e else mapFind? t h

/-- In-place mutation of the entry stored under a key (the C++ code mutates
the header through the pointer held in the map). Absent keys are untouched. -/
def mapSet (l : List (Nat × MemorySegmentEntryHeader)) (h : Nat)
    (e : MemorySegmentEntryHeader) : List (Nat × MemorySegmentEntryHeader) :=
  match l with
  | [] => []
  | (k, e') :: t => if k = h then (k, e) :: t else (k, e') :: mapSet t h e

/-- `EntriesMap::erase` (end of `deallocateCacheEntryImpl`, Cache.cpp:1915). -/
def mapErase (l : List (Nat × MemorySegmentEntryHeader)) (h : Nat) :
    List (Nat × MemorySegmentEntryHeader) :=
  match l with
  | [] => []
  | (k, e') :: t => if k = h then t else (k, e') :: mapErase t h

/-- `bip::set<U64>::insert` on a free-tile set: set semantics, membership is
all that matters to the proofs. -/
def setInsert (l : List Nat) (x : Nat) : List Nat :=
  if x ∈ l then l else l ++ [x]

/-- Read the intrusive LRU node of the entry keyed `k` in a bucket. -/
def getNode (b : CacheBucketIPCData) (k : Nat) : Option LRUListNode :=
  (mapFind? b.entriesMap k).map (fun e => e.lruNode)

/-- Overwrite the intrusive LRU node of the entry keyed `k` in a bucket
(a store through the node pointer in the C++ code). -/
def setNode (b : CacheBucketIPCData) (k : Nat) (n : LRUListNode) :
    CacheBucketIPCData :=
  match mapFind? b.entriesMap k with
  | none => b
  | some e => { b with entriesMap := mapSet b.entriesMap k { e with lruNode := n } }

/-- `node->prev = p` on the node of entry `k`. -/
def setNodePrev (b : CacheBucketIPCData) (k : Nat) (p : Option Nat) :
    CacheBucketIPCData :=
  match getNode b k with
  | none => b
  | some n => setNode b k { n with prev := p }

/-- `node->next = nx` on the node of entry `k`. -/
def setNodeNext (b : CacheBucketIPCData) (k : Nat) (nx : Option Nat) :
    CacheBucketIPCData :=
  match getNode b k with
  | none => b
  | some n => setNode b k { n with next := nx }

/-- `disconnectLinkedListNode` (Cache.cpp:591-609), statement by statement:
```
if (node->prev) { node->prev->next = node->next; }
node->prev = 0;
if (node->next) { node->next->prev = node->prev; }   // node->prev is 0 here
node->next = 0;
```
Note that the third statement assigns `node->prev`, which the second
statement has just cleared, so the successor's `prev` pointer is always set
to null; the embedding reproduces this. -/
def disconnectLinkedListNode (b : CacheBucketIPCData) (k : Nat) :
    CacheBucketIPCData :=
  match getNode b k with
  | none => b
  | some node =>
    let b1 := match node.prev with
      | some p => setNodeNext b p node.next
      | none => b
    let b2 := setNodePrev b1 k none
    let b3 := match node.next with
      | some nx => setNodePrev b2 nx none
      | none => b2
    setNodeNext b3 k none

/-- `insertLinkedListNode` (Cache.cpp:611-626). -/
def insertLinkedListNode (b : CacheBucketIPCData) (k : Nat)
    (prev nx : Option Nat) : CacheBucketIPCData :=
  let b1 := match prev with
    | some p => setNodeNext b p (some k)
    | none => b
  let b2 := setNodePrev b1 k prev
  let b3 := match nx with
    | some n => setNodePrev b2 n (some k)
    | none => b2
  setNodeNext b3 k nx

/-- One iteration of the tile-release loop of `deallocateCacheEntryImpl`
(Cache.cpp:1839-1878): the owning bucket of the tile is recomputed as
`tileIndex % NATRON_NUM_TILES_PER_BUCKET_FILE` (Cache.cpp:1858) and the
encoded id is inserted into that bucket's `freeTiles` set. -/
def freeOneTile (bs : Nat → CacheBucketIPCData) (encoded : Nat) :
    Nat → CacheBucketIPCData :=
  let tileBucketIndex := tileIndexOfEncoded encoded % NATRON_NUM_TILES_PER_BUCKET_FILE
  let tb := bs tileBucketIndex
  updBucket bs tileBucketIndex { tb with freeTiles := setInsert tb.freeTiles encoded }

/-- The whole tile-release loop of `deallocateCacheEntryImpl`. -/
def freeTileList (bs : Nat → CacheBucketIPCData) (tiles : List Nat) :
    Nat → CacheBucketIPCData :=
  match tiles with
  | [] => bs
  | t :: rest => freeTileList (freeOneTile bs t) rest

/-- The tile-release phase of `deallocateCacheEntryImpl`
(Cache.cpp:1826-1880), for the entry value `e` found under `hash` in bucket
`i`: when the entry owns tiles, `ipc->size -= nTiles * NATRON_TILE_SIZE_BYTES`,
every tile id is inserted into the free set of the bucket recomputed from
its tile index, and the entry's tile list is cleared
(`cacheEntryIt->second->tileIndices.clear()`, Cache.cpp:1879). -/
def deallocTiles (st : CacheState) (i hash : Nat)
    (e : MemorySegmentEntryHeader) : CacheState :=
  if e.tileIndices = [] then st
  else
    let b2 := st.buckets i
    let b2 := { b2 with
      size := subU64 b2.size (e.tileIndices.length * NATRON_TILE_SIZE_BYTES) }
    let st2 := { st with buckets := updBucket st.buckets i b2 }
    let st2 := { st2 with buckets := freeTileList st2.buckets e.tileIndices }
    let b3 := st2.buckets i
    match mapFind? b3.entriesMap hash with
    | none => st2
    | some e3 =>
      let e3' := { e3 with tileIndices := ([] : List Nat) }
      let b3' := { b3 with entriesMap := mapSet b3.entriesMap hash e3' }
      { st2 with buckets := updBucket st2.buckets i b3' }

/-- The endpoint fix-up of `deallocateCacheEntryImpl` (Cache.cpp:1892-1900):
if the LRU back pointer is this entry's node, `lruListBack = node.prev`
(the node of the back cannot have a `next`); if the LRU front pointer is
this entry's node, `lruListFront = node.prev` — the source assigns `prev`
in both cases (Cache.cpp:1896 and 1899). -/
def fixLruEndpoints (b : CacheBucketIPCData) (hash : Nat)
    (node : LRUListNode) : CacheBucketIPCData :=
  let b5 := if b.lruListBack = some hash then { b with lruListBack := node.prev } else b
  if b5.lruListFront = some hash then { b5 with lruListFront := node.prev } else b5

/-- The LRU-unlink and destruction phase of `deallocateCacheEntryImpl`
(Cache.cpp:1883-1915) on one bucket: fix the endpoints
(`fixLruEndpoints`), `disconnectLinkedListNode(node)`, destroy the header
and erase the key from `entriesMap`. -/
def deallocLruAndErase (b : CacheBucketIPCData) (hash : Nat)
    (fallbackNode : LRUListNode) : CacheBucketIPCData :=
  let node := ((mapFind? b.entriesMap hash).map (fun e4 => e4.lruNode)).getD fallbackNode
  let b6 := fixLruEndpoints b hash node
  let b7 := disconnectLinkedListNode b6 hash
  { b7 with entriesMap := mapErase b7.entriesMap hash }

/-- `CacheBucket::deallocateCacheEntryImpl` (Cache.cpp:1810-1916) on the
entry keyed `hash` of bucket `i`:
1. `ipc->size -= entry->size` (Cache.cpp:1824);
2. the tile-release phase `deallocTiles`;
3. the LRU-unlink and destruction phase `deallocLruAndErase`.
Absent keys are untouched (the C++ code asserts the iterator is valid). -/
def deallocateCacheEntryImpl (st : CacheState) (i hash : Nat) : CacheState :=
  let b0 := st.buckets i
  match mapFind? b0.entriesMap hash with
  | none => st
  | some e =>
    let b1 := { b0 with size := subU64 b0.size e.size }
    let st1 := { st with buckets := updBucket st.buckets i b1 }
    let st2 := deallocTiles st1 i hash e
    { st2 with buckets :=
        updBucket st2.buckets i (deallocLruAndErase (st2.buckets i) hash e.lruNode) }

/-! ## Serialized properties and the payload capability -/

/-- `#define kNatronIPCPropertyHash "NatronIPCPropertyHash"` (Cache.cpp:125). -/
def kNatronIPCPropertyHash : String := "NatronIPCPropertyHash"

/-- `IPCPropertyMap::setIPCProperty`: store a named property, overwriting an
existing one of the same name. -/
def setIPCProperty (props : List (String × Nat)) (name : String) (v : Nat) :
    List (String × Nat) :=
  match props with
  | [] => [(name, v)]
  | (n, v') :: t =>
    if n = name then (n, v) :: t else (n, v') :: setIPCProperty t name v

/-- `IPCPropertyMap::getIPCProperty`: read a named property back. -/
def getIPCProperty (props : List (String × Nat)) (name : String) : Option Nat :=
  match props with
  | [] => none
  | (n, v) :: t => if n = name then some v else getIPCProperty t name

/-- Apply a sequence of property writes in order. -/
def applyPropertyWrites (props : List (String × Nat))
    (writes : List (String × Nat)) : List (String × Nat) :=
  match writes with
  | [] => props
  | (n, v) :: t => applyPropertyWrites (setIPCProperty props n v) t

/-- The ordered sequence of property writes performed by
`CacheEntryLockerPrivate<true>::serializeCacheEntry` (Cache.cpp:2393-2413)
when the payload's `toMemorySegment` performs the writes `payloadWrites`:
first the payload fields, and as the very last action the hash property set
to the entry's key (Cache.cpp:2405). -/
def serializeWrites (payloadWrites : List (String × Nat)) (hash : Nat) :
    List (String × Nat) :=
  payloadWrites ++ [(kNatronIPCPropertyHash, hash)]

/-- `CacheEntryLockerPrivate<persistent>::InsertRetCodeEnum`
(Cache.cpp:1000-1005). -/
inductive InsertRetCode
  | created
  | outOfToCMemory
  | failed
deriving DecidableEq, Repr

/-- `CacheEntryLockerPrivate<true>::serializeCacheEntry` (Cache.cpp:2393-2413).
The opaque payload is modelled by `payloadSer`: `none` means its
`toMemorySegment` threw `bip::bad_alloc` (then the properties written so far
are cleared and the call reports out-of-memory); `some ws` means it performed
the property writes `ws`, after which the hash property is appended. -/
def serializeCacheEntry (payloadSer : Option (List (String × Nat)))
    (hash : Nat) (entry : MemorySegmentEntryHeader) :
    MemorySegmentEntryHeader × InsertRetCode :=
  match payloadSer with
  | none => ({ entry with properties := [] }, InsertRetCode.outOfToCMemory)
  | some ws =>
    ({ entry with properties :=
        applyPropertyWrites entry.properties (serializeWrites ws hash) },
     InsertRetCode.created)

/-- `CacheEntryBase::FromMemorySegmentRetCodeEnum` together with the two
exception outcomes that `deserializeEntry` catches: the payload's
`fromMemorySegment` may return a code, throw `bip::bad_alloc`, or throw any
other exception (Cache.cpp:1699-1714). -/
inductive FromMemorySegmentRetCode
  | ok
  | failed
  | needWriteLock
  | badAllocThrown
  | otherExceptionThrown
deriving DecidableEq, Repr

/-- `CacheBucket<persistent>::ShmEntryReadRetCodeEnum` (Cache.cpp:890-896). -/
inductive ShmEntryReadRetCode
  | ok
  | deserializationFailed
  | outOfMemory
  | needWriteLock
deriving DecidableEq, Repr

/-- `CacheBucket<true>::deserializeEntry` (Cache.cpp:1683-1738):
check the stored hash property first, then run the payload's
`fromMemorySegment` (modelled by its outcome `fromMemSeg` and by the hash
`hashOfDeserialized` the deserialized payload recomputes), mapping each
outcome exactly as the source does. -/
def deserializeEntry (entry : MemorySegmentEntryHeader) (hash : Nat)
    (hasWriteRights : Bool) (fromMemSeg : FromMemorySegmentRetCode)
    (hashOfDeserialized : Nat) : ShmEntryReadRetCode :=
  match getIPCProperty entry.properties kNatronIPCPropertyHash with
  | none => ShmEntryReadRetCode.deserializationFailed
  | some serializedHash =>
    if serializedHash ≠ hash then ShmEntryReadRetCode.deserializationFailed
    else
      match fromMemSeg with
      | FromMemorySegmentRetCode.badAllocThrown =>
        if hasWriteRights then ShmEntryReadRetCode.outOfMemory
        else ShmEntryReadRetCode.deserializationFailed
      | FromMemorySegmentRetCode.otherExceptionThrown =>
        ShmEntryReadRetCode.deserializationFailed
      | FromMemorySegmentRetCode.failed =>
        ShmEntryReadRetCode.deserializationFailed
      | FromMemorySegmentRetCode.needWriteLock =>
        if hasWriteRights then ShmEntryReadRetCode.deserializationFailed
        else ShmEntryReadRetCode.needWriteLock
      | FromMemorySegmentRetCode.ok =>
        if hashOfDeserialized ≠ hash then
          ShmEntryReadRetCode.deserializationFailed
        else ShmEntryReadRetCode.ok

/-- `CacheBucket<persistent>::readFromSharedMemoryEntryImpl`
(Cache.cpp:1740-1795): deserialize a Ready entry, then touch the LRU list:
if the entry's node is not already the back node, unlink it and push it to
the back of the list. -/
def readFromSharedMemoryEntryImpl (st : CacheState) (i hash : Nat)
    (hasWriteRights : Bool) (fromMemSeg : FromMemorySegmentRetCode)
    (hashOfDeserialized : Nat) : CacheState × ShmEntryReadRetCode :=
  let b := st.buckets i
  match mapFind? b.entriesMap hash with
  | none => (st, ShmEntryReadRetCode.deserializationFailed)
  | some e =>
    let ret := deserializeEntry e hash hasWriteRights fromMemSeg hashOfDeserialized
    if ret ≠ ShmEntryReadRetCode.ok then (st, ret)
    else
      if b.lruListBack = some hash then (st, ShmEntryReadRetCode.ok)
      else
        let b1 := disconnectLinkedListNode b hash
        let b2 := insertLinkedListNode b1 hash b1.lruListBack none
        let b3 := { b2 with lruListBack := some hash }
        ({ st with buckets := updBucket st.buckets i b3 }, ShmEntryReadRetCode.ok)

/-! ## The locker state machine -/

/-- `CacheEntryLockerBase::CacheEntryStatusEnum`. -/
inductive CacheEntryStatus
  | mustCompute
  | computationPending
  | cached
deriving DecidableEq, Repr

/-- `CacheEntryLockerPrivate::LookUpRetCodeEnum` (Cache.cpp:977-982). -/
inductive LookUpRetCode
  | found
  | notFound
  | outOfMemory
deriving DecidableEq, Repr

/-- `CacheEntryLockerPrivate::lookupAndSetStatusInternal`
(Cache.cpp:1978-2105), the status state machine of one locker:

* key absent → `notFound` (locker status defaults to MustCompute);
* entry Null and no write rights → `notFound`;
* entry Pending, no same-thread recursion, and
  `timeout == 0 || timeSpentWaiting < timeout` → status ComputationPending,
  `found`;
* entry Pending otherwise and no write rights → `notFound`;
* entry Ready → deserialize via `readFromSharedMemoryEntryImpl` and switch
  on the outcome (deallocating the entry under write rights when
  deserialization failed, or when out of memory and `removeIfOOM`);
* otherwise (entry Null, or Pending after the caller timed out, both with
  write rights) → the entry is marked Pending — its `computeThreadMagic` is
  not modified — and the locker status becomes MustCompute, `found`. -/
def lookupAndSetStatusInternal (st : CacheState) (i hash curMagic : Nat)
    (allowMultipleFetch hasWriteRights removeIfOOM : Bool)
    (timeSpentWaiting timeout : Nat) (fromMemSeg : FromMemorySegmentRetCode)
    (hashOfDeserialized : Nat) :
    CacheState × CacheEntryStatus × LookUpRetCode :=
  let b := st.buckets i
  match mapFind? b.entriesMap hash with
  | none => (st, CacheEntryStatus.mustCompute, LookUpRetCode.notFound)
  | some e =>
    if e.status = EntryStatus.null ∧ hasWriteRights = false then
      (st, CacheEntryStatus.mustCompute, LookUpRetCode.notFound)
    else
      let recursionDetected :=
        allowMultipleFetch = false ∧ e.computeThreadMagic = curMagic
      if e.status = EntryStatus.pending ∧ ¬recursionDetected ∧
          (timeout = 0 ∨ timeSpentWaiting < timeout) then
        (st, CacheEntryStatus.computationPending, LookUpRetCode.found)
      else if e.status = EntryStatus.pending ∧ hasWriteRights = false then
        (st, CacheEntryStatus.mustCompute, LookUpRetCode.notFound)
      else if e.status = EntryStatus.ready then
        let res := readFromSharedMemoryEntryImpl st i hash hasWriteRights
          fromMemSeg hashOfDeserialized
        match res.2 with
        | ShmEntryReadRetCode.ok =>
          (res.1, CacheEntryStatus.cached, LookUpRetCode.found)
        | ShmEntryReadRetCode.deserializationFailed =>
          if hasWriteRights then
            (deallocateCacheEntryImpl res.1 i hash,
             CacheEntryStatus.mustCompute, LookUpRetCode.notFound)
          else (res.1, CacheEntryStatus.mustCompute, LookUpRetCode.notFound)
        | ShmEntryReadRetCode.needWriteLock =>
          (res.1, CacheEntryStatus.mustCompute, LookUpRetCode.notFound)
        | ShmEntryReadRetCode.outOfMemory =>
          if removeIfOOM ∧ hasWriteRights then
            (deallocateCacheEntryImpl res.1 i hash,
             CacheEntryStatus.mustCompute, LookUpRetCode.notFound)
          else (res.1, CacheEntryStatus.mustCompute, LookUpRetCode.outOfMemory)
      else
        let e' := { e with status := EntryStatus.pending }
        let b' := { b with entriesMap := mapSet b.entriesMap hash e' }
        ({ st with buckets := updBucket st.buckets i b' },
         CacheEntryStatus.mustCompute, LookUpRetCode.found)

/-- `CacheEntryLockerPrivate::LookupAndCreateRetCodeEnum`
(Cache.cpp:989-993). -/
inductive LookupAndCreateRetCode
  | created
  | outOfToCMemory
deriving DecidableEq, Repr

/-- The construction part of `lookupAndCreate` (Cache.cpp:2186-2226): a new
`MemorySegmentEntryHeader` is constructed in the ToC segment (`allocOk`
models whether the segment allocator succeeds; on failure the function
reports `OutOfToCMemory`), inserted into `entriesMap` under the hash, its
size set to the process-local entry's metadata size, its plug-in id
appended, its status set to Pending and its `computeThreadMagic` stamped
with the current thread.  The entry is not inserted into the LRU list here.
When the key is already present, `entriesMap.insert` keeps the existing
entry (the debug build asserts freshness); the constructed header is then
orphaned and the map is unchanged. -/
def constructCacheEntry (st : CacheState) (i hash curMagic : Nat)
    (metadataSize : Nat) (pluginID : String) (allocOk : Bool) :
    CacheState × CacheEntryStatus × LookupAndCreateRetCode :=
  if allocOk = false then
    (st, CacheEntryStatus.mustCompute, LookupAndCreateRetCode.outOfToCMemory)
  else
    let b := st.buckets i
    if (mapFind? b.entriesMap hash).isSome then
      (st, CacheEntryStatus.mustCompute, LookupAndCreateRetCode.created)
    else
      let e : MemorySegmentEntryHeader :=
        { size := metadataSize
          status := EntryStatus.pending
          computeThreadMagic := curMagic
          lruNode := { prev := none, next := none, hash := 0 }
          tileIndices := []
          pluginID := pluginID
          properties := [] }
      let b' := { b with entriesMap := (hash, e) :: b.entriesMap }
      ({ st with buckets := updBucket st.buckets i b' },
       CacheEntryStatus.mustCompute, LookupAndCreateRetCode.created)

/-- `CacheEntryLockerPrivate::lookupAndCreate` (Cache.cpp:2107-2227): under
the bucket write lock, run `lookupAndSetStatusInternal` with write rights
for up to two attempts (the second with `removeIfOOM`, after growing the ToC
on an out-of-memory result); on `found` return Created with the status set
by the lookup, otherwise construct and reserve a fresh Pending entry. -/
def lookupAndCreate (st : CacheState) (i hash curMagic : Nat)
    (allowMultipleFetch : Bool) (timeSpentWaiting timeout : Nat)
    (metadataSize : Nat) (pluginID : String) (allocOk : Bool)
    (fromMemSeg : FromMemorySegmentRetCode) (hashOfDeserialized : Nat) :
    CacheState × CacheEntryStatus × LookupAndCreateRetCode :=
  let r1 := lookupAndSetStatusInternal st i hash curMagic allowMultipleFetch
    true false timeSpentWaiting timeout fromMemSeg hashOfDeserialized
  match r1.2.2 with
  | LookUpRetCode.found => (r1.1, r1.2.1, LookupAndCreateRetCode.created)
  | LookUpRetCode.notFound =>
    constructCacheEntry r1.1 i hash curMagic metadataSize pluginID allocOk
  | LookUpRetCode.outOfMemory =>
    -- the ToC file is grown, then the look-up is retried with removeIfOOM
    let r2 := lookupAndSetStatusInternal r1.1 i hash curMagic
      allowMultipleFetch true true timeSpentWaiting timeout fromMemSeg
      hashOfDeserialized
    match r2.2.2 with
    | LookUpRetCode.found => (r2.1, r2.2.1, LookupAndCreateRetCode.created)
    | _ => constructCacheEntry r2.1 i hash curMagic metadataSize pluginID allocOk

/-- `CacheEntryLockerPrivate::lookupAndSetStatus` (Cache.cpp:2259-2366): the
read-path look-up under the shared bucket lock, followed — when the entry
was not usable — by the write path `lookupAndCreate`, retried once when the
ToC segment is out of memory (the retry happens after growing the file). -/
def lookupAndSetStatus (st : CacheState) (hash curMagic : Nat)
    (allowMultipleFetch : Bool) (timeSpentWaiting timeout : Nat)
    (metadataSize : Nat) (pluginID : String) (allocOk : Bool)
    (fromMemSeg : FromMemorySegmentRetCode) (hashOfDeserialized : Nat) :
    CacheState × CacheEntryStatus :=
  let i := getBucketCacheBucketIndex hash
  let r1 := lookupAndSetStatusInternal st i hash curMagic allowMultipleFetch
    false false timeSpentWaiting timeout fromMemSeg hashOfDeserialized
  match r1.2.2 with
  | LookUpRetCode.found => (r1.1, r1.2.1)
  | _ =>
    let r2 := lookupAndCreate r1.1 i hash curMagic allowMultipleFetch
      timeSpentWaiting timeout metadataSize pluginID allocOk fromMemSeg
      hashOfDeserialized
    match r2.2.2 with
    | LookupAndCreateRetCode.created => (r2.1, r2.2.1)
    | LookupAndCreateRetCode.outOfToCMemory =>
      let r3 := lookupAndCreate r2.1 i hash curMagic allowMultipleFetch
        timeSpentWaiting timeout metadataSize pluginID allocOk fromMemSeg
        hashOfDeserialized
      (r3.1, r3.2.1)

/-- `Cache::get` → `CacheEntryLocker::create` (Cache.cpp:1394-1414,
3968-3973): a fresh locker starts in MustCompute and runs
`lookupAndSetStatus` with `timeSpentWaiting = 0` and `timeout = 0` (never
taking over an entry on first look-up). -/
def cacheGet (st : CacheState) (hash curMagic : Nat)
    (allowMultipleFetch : Bool) (metadataSize : Nat) (pluginID : String)
    (allocOk : Bool) (fromMemSeg : FromMemorySegmentRetCode)
    (hashOfDeserialized : Nat) : CacheState × CacheEntryStatus :=
  lookupAndSetStatus st hash curMagic allowMultipleFetch 0 0 metadataSize
    pluginID allocOk fromMemSeg hashOfDeserialized

/-- The successful tail of `insertInternal` (Cache.cpp:2462-2499) on one
bucket, after the payload was serialized into the entry value `e1`:
`ipc->size += entry->size`, reset the entry\'s intrusive node and push it to
the back of the LRU list (initializing both endpoints when the list was
empty), then clear `computeThreadMagic` and mark the entry Ready. -/
def insertFinalize (b : CacheBucketIPCData) (hash : Nat)
    (e1 : MemorySegmentEntryHeader) : CacheBucketIPCData :=
  let b1 := { b with entriesMap := mapSet b.entriesMap hash e1 }
  -- bucket->ipc->size += cacheEntryIt->second->size
  let b2 := { b1 with size := addU64 b1.size e1.size }
  -- reset this node and insert it at the back of the LRU list
  let e2 := { e1 with lruNode := { prev := none, next := none, hash := hash } }
  let b3 := { b2 with entriesMap := mapSet b2.entriesMap hash e2 }
  let b4 :=
    match b3.lruListBack with
    | none => { b3 with lruListFront := some hash, lruListBack := some hash }
    | some back =>
      let b5 := insertLinkedListNode b3 hash (some back) none
      { b5 with lruListBack := some hash }
  -- clear the magic and mark the entry Ready
  match mapFind? b4.entriesMap hash with
  | none => b4
  | some e4 =>
    let e5 := { e4 with computeThreadMagic := 0, status := EntryStatus.ready }
    { b4 with entriesMap := mapSet b4.entriesMap hash e5 }

/-- `CacheEntryLockerPrivate::insertInternal` (Cache.cpp:2415-2508): under
the bucket write lock, find the reserved entry (a missing entry means the
cache was wiped; the locker status is then left unchanged); when its
`computeThreadMagic` is zero the status just becomes Cached; otherwise the
payload is serialized into the segment (`payloadSer` as in
`serializeCacheEntry`), the bucket is billed `entry.size` bytes, the entry's
node is pushed to the back of the LRU list, the magic is cleared and the
entry marked Ready, and the locker status becomes Cached. -/
def insertInternal (st : CacheState) (i hash : Nat)
    (payloadSer : Option (List (String × Nat)))
    (lockerStatus : CacheEntryStatus) :
    CacheState × CacheEntryStatus × InsertRetCode :=
  let b := st.buckets i
  match mapFind? b.entriesMap hash with
  | none => (st, lockerStatus, InsertRetCode.created)
  | some e =>
    if e.computeThreadMagic = 0 then
      (st, CacheEntryStatus.cached, InsertRetCode.created)
    else
      let ser := serializeCacheEntry payloadSer hash e
      match ser.2 with
      | InsertRetCode.outOfToCMemory =>
        -- properties were cleared by serializeCacheEntry before returning
        let b1 := { b with entriesMap := mapSet b.entriesMap hash ser.1 }
        ({ st with buckets := updBucket st.buckets i b1 },
         lockerStatus, InsertRetCode.outOfToCMemory)
      | _ =>
        ({ st with buckets := updBucket st.buckets i (insertFinalize b hash ser.1) },
         CacheEntryStatus.cached, InsertRetCode.created)

/-- `CacheEntryLocker::~CacheEntryLocker` (Cache.cpp:2648-2703): a locker
destroyed in Cached status releases nothing; one destroyed in MustCompute
looks the entry up (a missing entry means the cache was wiped, nothing is
done) and deallocates it; any other status changes nothing. -/
def lockerDestroy (st : CacheState) (hash : Nat)
    (lockerStatus : CacheEntryStatus) : CacheState :=
  if lockerStatus = CacheEntryStatus.cached then st
  else if lockerStatus = CacheEntryStatus.mustCompute then
    let i := getBucketCacheBucketIndex hash
    match mapFind? (st.buckets i).entriesMap hash with
    | none => st
    | some _ => deallocateCacheEntryImpl st i hash
  else st

/-- `Cache::hasCacheEntryForHash` (Cache.cpp:3975-4016): look the key up in
the bucket selected by `getBucketCacheBucketIndex`. -/
def hasCacheEntryForHash (st : CacheState) (hash : Nat) : Bool :=
  let i := getBucketCacheBucketIndex hash
  (mapFind? (st.buckets i).entriesMap hash).isSome

/-- `Cache::removeEntry` (Cache.cpp:4018-4073): look the key up in the
bucket selected by `getBucketCacheBucketIndex` and deallocate it when
present. -/
def removeEntry (st : CacheState) (hash : Nat) : CacheState :=
  let i := getBucketCacheBucketIndex hash
  if (mapFind? (st.buckets i).entriesMap hash).isSome then
    deallocateCacheEntryImpl st i hash
  else st

/-! ## Eviction -/

/-- `Cache::getCurrentSize` (Cache.cpp:3789-3829): the sum of the 256
bucket sizes (`size_t` accumulation). -/
def getCurrentSize (st : CacheState) : Nat :=
  (List.range NATRON_CACHE_BUCKETS_COUNT).foldl
    (fun acc i => addU64 acc (st.buckets i).size) 0

/-- Total number of entries in the cache. Used as recursion fuel for the
eviction loop: every eviction round that evicts anything removes at least
one entry, so `totalEntries st + 1` bounds the number of rounds. -/
def totalEntries (st : CacheState) : Nat :=
  (List.range NATRON_CACHE_BUCKETS_COUNT).foldl
    (fun acc i => acc + (st.buckets i).entriesMap.length) 0

/-- The per-bucket body of the eviction round (Cache.cpp:4198-4265): read
the hash stored in the front LRU node (`hash` stays `0` when the front
pointer is null); skip the bucket when it is `0` or when the look-up fails;
otherwise deallocate the entry and report the two amounts the loop subtracts
from its running size (`entry->size` and `nTiles * NATRON_TILE_SIZE_BYTES`,
Cache.cpp:4246-4247). -/
def evictBucketOnce (st : CacheState) (i : Nat) :
    CacheState × Option (Nat × Nat) :=
  let b := st.buckets i
  let hash : Nat :=
    match b.lruListFront with
    | none => 0
    | some k =>
      match getNode b k with
      | none => 0
      | some n => n.hash
  if hash = 0 then (st, none)
  else
    match mapFind? b.entriesMap hash with
    | none => (st, none)
    | some e =>
      (deallocateCacheEntryImpl st i hash,
       some (e.size, e.tileIndices.length * NATRON_TILE_SIZE_BYTES))

/-- The accumulator step of one eviction round: thread the state, subtract
the freed amounts from the running size (`curSize -= ...`,
Cache.cpp:4246-4247) and raise `foundBucketThatCanEvict` on success. -/
def evictStep (acc : CacheState × Nat × Bool) (i : Nat) :
    CacheState × Nat × Bool :=
  match evictBucketOnce acc.1 i with
  | (st', none) => (st', acc.2.1, acc.2.2)
  | (st', some (a, b)) => (st', subU64 (subU64 acc.2.1 a) b, true)

/-- One round of `Cache::evictLRUEntries` over all 256 buckets
(Cache.cpp:4198-4265), threading the state, the running size and the
`foundBucketThatCanEvict` flag. -/
def evictRound (st : CacheState) (curSize : Nat) : CacheState × Nat × Bool :=
  (List.range NATRON_CACHE_BUCKETS_COUNT).foldl evictStep (st, curSize, false)

/-- The `while (mustEvictEntries)` loop of `Cache::evictLRUEntries`
(Cache.cpp:4189-4275), with explicit fuel: stop when the running size is
within the target, run a round, stop when the round evicted nothing. -/
def evictLoop (fuel : Nat) (st : CacheState) (curSize maxSize : Nat) :
    CacheState :=
  match fuel with
  | 0 => st
  | fuel' + 1 =>
    if curSize ≤ maxSize then st
    else
      let r := evictRound st curSize
      if r.2.2 = false then r.1
      else evictLoop fuel' r.1 r.2.1 maxSize

/-- `Cache::evictLRUEntries` (Cache.cpp:4168-4277): a zero maximum size
means "no limit" and returns immediately; otherwise the target becomes
`maxSize - nBytesToFree` (clamped at 0) and least-recently-used entries are
deallocated round-robin over the buckets until the running size reaches the
target or a full round evicts nothing. -/
def evictLRUEntries (st : CacheState) (nBytesToFree : Nat) : CacheState :=
  let maxSize := st.maximumSize
  if maxSize = 0 then st
  else
    let target := if nBytesToFree ≥ maxSize then 0 else maxSize - nBytesToFree
    let curSize := getCurrentSize st
    evictLoop (totalEntries st + 1) st curSize target

/-! ## Tile storage -/

/-- Seed one bucket with its share of a freshly created storage file
(Cache.cpp:3041-3087): bucket `b` receives the encoded ids of the tiles
with tile index `b * NATRON_NUM_TILES_PER_BUCKET_FILE + k` for
`k < NATRON_NUM_TILES_PER_BUCKET_FILE`, merged into its existing free set
(the code rebuilds the set from a temporary heap set; membership-wise this
is the union). -/
def seedBucketFreeTiles (b : CacheBucketIPCData) (bucketIdx fileIndex : Nat) :
    CacheBucketIPCData :=
  let nTiles := bucketIdx * NATRON_NUM_TILES_PER_BUCKET_FILE
  let newIds := (List.range NATRON_NUM_TILES_PER_BUCKET_FILE).map
    (fun k => encodeTileIndex (nTiles + k) fileIndex)
  { b with freeTiles := newIds.foldl setInsert b.freeTiles }

/-- The per-bucket seeding loop of `CachePrivate::createTileStorage`
(Cache.cpp:3011-3089), over an explicit list of bucket indices. -/
def seedBuckets (st : CacheState) (fileIndex : Nat) :
    List Nat → CacheState
  | [] => st
  | b :: rest =>
    let bs' := updBucket st.buckets b (seedBucketFreeTiles (st.buckets b) b fileIndex)
    seedBuckets { st with buckets := bs' } fileIndex rest

/-- `CachePrivate::createTileStorage` (Cache.cpp:2983-3095): do nothing
when tile storage is disabled; otherwise append a new storage file (its
index is the previous file count, Cache.cpp:3001) and seed every bucket's
free-tile set with its share of the new tiles. -/
def createTileStorage (st : CacheState) : CacheState :=
  if st.useTileStorage = false then st
  else
    let fileIndex := st.tilesStorageCount
    let st1 := { st with tilesStorageCount := st.tilesStorageCount + 1 }
    seedBuckets st1 fileIndex (List.range NATRON_CACHE_BUCKETS_COUNT)

/-! ## A serialised model of racing `Cache::get` callers

The interprocess locks serialise the write path (`lookupAndCreate` runs
under the exclusive bucket lock, Cache.cpp:2114-2120) and `insertInternal`
(Cache.cpp:2422-2427), so a run of N concurrent callers on one key is an
interleaving of atomic `lookupAndSetStatus` and `insertInternal` steps.
Each caller is a thread with its own nonzero magic; per protocol a caller
looks up first (`Cache::get`), re-polls only while its status is
ComputationPending (`waitForPendingEntry`, Cache.cpp:2582-2646), and calls
`insertInCache` only in MustCompute status (asserted, Cache.cpp:2516).
The payload capability is modelled as behaving correctly (no writes,
successful deserialization recomputing the looked-up hash). -/

/-- One racing caller: its thread magic and the status of its locker
(`none` until its first `Cache::get`). -/
structure RaceCaller where
  magic : Nat
  status : Option CacheEntryStatus
deriving DecidableEq, Repr

/-- An atomic step of the race: a (re-)look-up by one caller with the given
waiting time and timeout, or an insertion by one caller. -/
inductive RaceEvent
  | look (callerIdx timeSpentWaiting timeout : Nat)
  | insert (callerIdx : Nat)
deriving DecidableEq, Repr

/-- The cache together with the racing callers' locker statuses. -/
structure RaceState where
  cache : CacheState
  callers : List RaceCaller

/-- Apply one race event. Events violating the locker protocol (a look-up
by a caller that is not fresh or waiting, an insert by a caller not in
MustCompute) do nothing. -/
def raceStep (hash : Nat) (s : RaceState) (ev : RaceEvent) : RaceState :=
  match ev with
  | RaceEvent.look ci ts tmo =>
    match s.callers[ci]? with
    | none => s
    | some c =>
      if c.status = none ∨ c.status = some CacheEntryStatus.computationPending then
        let r := lookupAndSetStatus s.cache hash c.magic false ts tmo 100 "plugin"
          true FromMemorySegmentRetCode.ok hash
        { cache := r.1, callers := s.callers.set ci { c with status := some r.2 } }
      else s
  | RaceEvent.insert ci =>
    match s.callers[ci]? with
    | none => s
    | some c =>
      if c.status = some CacheEntryStatus.mustCompute then
        let r := insertInternal s.cache (getBucketCacheBucketIndex hash) hash
          (some []) CacheEntryStatus.mustCompute
        { cache := r.1, callers := s.callers.set ci { c with status := some r.2.1 } }
      else s

/-- Run a list of race events. -/
def runRace (hash : Nat) (s : RaceState) : List RaceEvent → RaceState
  | [] => s
  | ev :: rest => runRace hash (raceStep hash s ev) rest

/-- Callers have pairwise distinct, nonzero magics (threads are distinct). -/
def magicsOk (callers : List RaceCaller) : Prop :=
  (∀ (j : Nat) (cj : RaceCaller), callers[j]? = some cj → cj.magic ≠ 0) ∧
  ∀ (j k : Nat) (cj ck : RaceCaller), callers[j]? = some cj →
    callers[k]? = some ck → cj.magic = ck.magic → j = k

/-- An event does not use the takeover timeout (a look-up with `timeout = 0`
never promotes a waiter, Cache.cpp:2023). -/
def noTakeoverEvent (ev : RaceEvent) : Prop :=
  match ev with
  | RaceEvent.look _ _ timeout => timeout = 0
  | RaceEvent.insert _ => True

/-- The mutual-exclusion/progress invariant of the race on one key:
* entry absent: nobody has looked up yet;
* entry Pending: exactly one caller is in MustCompute, its magic is the
  entry's `computeThreadMagic`, and every other caller is fresh or in
  ComputationPending;
* entry Ready: the magic is cleared, the stored hash property equals the
  key (so later look-ups deserialize to Cached), and no caller is in
  MustCompute. -/
def raceInv (hash : Nat) (s : RaceState) : Prop :=
  match mapFind? ((s.cache.buckets (getBucketCacheBucketIndex hash)).entriesMap) hash with
  | none => ∀ (j : Nat) (cj : RaceCaller), s.callers[j]? = some cj →
      cj.status = none
  | some e =>
    match e.status with
    | EntryStatus.pending =>
      ∃ (oi : Nat) (c : RaceCaller), s.callers[oi]? = some c ∧
        c.status = some CacheEntryStatus.mustCompute ∧
        c.magic = e.computeThreadMagic ∧
        ∀ (j : Nat) (cj : RaceCaller), j ≠ oi → s.callers[j]? = some cj →
          cj.status = none ∨ cj.status = some CacheEntryStatus.computationPending
    | EntryStatus.ready =>
      e.computeThreadMagic = 0 ∧
      getIPCProperty e.properties kNatronIPCPropertyHash = some hash ∧
      ∀ (j : Nat) (cj : RaceCaller), s.callers[j]? = some cj →
        cj.status ≠ some CacheEntryStatus.mustCompute
    | EntryStatus.null => False

/-- At most one caller holds MustCompute. -/
def mutualExclusion (s : RaceState) : Prop :=
  ∀ (j k : Nat) (cj ck : RaceCaller), s.callers[j]? = some cj →
    s.callers[k]? = some ck →
    cj.status = some CacheEntryStatus.mustCompute →
    ck.status = some CacheEntryStatus.mustCompute → j = k

/-! ## Concrete states used by the counterexamples and witnesses -/

/-- The observable core of an entry header: everything except its billing
size, intrusive node and tiles. -/
def entryCore (e : MemorySegmentEntryHeader) :
    EntryStatus × Nat × List (String × Nat) :=
  (e.status, e.computeThreadMagic, e.properties)

/-- Relation between two bucket values that differ at most in the stored
`lruNode`s: the key list, every entry's core, the byte count, the free-tile
set and the LRU endpoints all agree. The LRU-surgery helpers only move
intrusive nodes around, so they relate their input to their output. -/
def NodeOpOnly (b b' : CacheBucketIPCData) : Prop :=
  b'.entriesMap.map Prod.fst = b.entriesMap.map Prod.fst ∧
  (∀ h, (mapFind? b'.entriesMap h).map entryCore =
    (mapFind? b.entriesMap h).map entryCore) ∧
  b'.size = b.size ∧ b'.freeTiles = b.freeTiles ∧
  b'.lruListFront = b.lruListFront ∧ b'.lruListBack = b.lruListBack

/-- A cache with all buckets empty, no tile file yet, no size limit. -/
def emptyCacheState : CacheState :=
  { buckets := fun _ => emptyBucket
    tilesStorageCount := 0
    maximumSize := 0
    useTileStorage := true }

/-- A Ready 1000-byte entry with hash 256, at the front of bucket 0's LRU
list, linked to the entry with hash 512. -/
def entryA : MemorySegmentEntryHeader :=
  { size := 1000
    status := EntryStatus.ready
    computeThreadMagic := 0
    lruNode := { prev := none, next := some 512, hash := 256 }
    tileIndices := []
    pluginID := "p"
    properties := [(kNatronIPCPropertyHash, 256)] }

/-- A Ready 1000-byte entry with hash 512, at the back of bucket 0's LRU
list. -/
def entryB : MemorySegmentEntryHeader :=
  { size := 1000
    status := EntryStatus.ready
    computeThreadMagic := 0
    lruNode := { prev := some 256, next := none, hash := 512 }
    tileIndices := []
    pluginID := "p"
    properties := [(kNatronIPCPropertyHash, 512)] }

/-- Bucket 0 holding the two-entry LRU list `[256, 512]`, 2000 bytes. -/
def bucketTwoEntries : CacheBucketIPCData :=
  { lruListFront := some 256
    lruListBack := some 512
    size := 2000
    entriesMap := [(256, entryA), (512, entryB)]
    freeTiles := [] }

/-- A cache whose bucket 0 holds the two-entry LRU list and whose maximum
size is 500 bytes. -/
def stTwoEntries : CacheState :=
  { buckets := fun j => if j = 0 then bucketTwoEntries else emptyBucket
    tilesStorageCount := 1
    maximumSize := 500
    useTileStorage := true }

/-- A Pending entry with hash 5 reserved by the thread with magic 42. -/
def entryPendingForeign : MemorySegmentEntryHeader :=
  { size := 1000
    status := EntryStatus.pending
    computeThreadMagic := 42
    lruNode := { prev := none, next := none, hash := 0 }
    tileIndices := []
    pluginID := "p"
    properties := [] }

/-- A cache whose bucket 5 holds the foreign Pending entry with hash 5. -/
def stPendingForeign : CacheState :=
  { buckets := fun j =>
      if j = 5 then { emptyBucket with entriesMap := [(5, entryPendingForeign)] }
      else emptyBucket
    tilesStorageCount := 1
    maximumSize := 0
    useTileStorage := true }

/-- A Ready entry with hash 5 whose stored hash property is wrong (99). -/
def entryBadHash : MemorySegmentEntryHeader :=
  { size := 1000
    status := EntryStatus.ready
    computeThreadMagic := 0
    lruNode := { prev := none, next := none, hash := 5 }
    tileIndices := []
    pluginID := "p"
    properties := [(kNatronIPCPropertyHash, 99)] }

/-- A cache whose bucket 5 holds the corrupted Ready entry with hash 5 as
its only LRU element. -/
def stBadHash : CacheState :=
  { buckets := fun j =>
      if j = 5 then
        { lruListFront := some 5
          lruListBack := some 5
          size := 1000
          entriesMap := [(5, entryBadHash)]
          freeTiles := [] }
      else emptyBucket
    tilesStorageCount := 1
    maximumSize := 0
    useTileStorage := true }

/-- A Ready entry stored under the key `2 ^ 56` (top 8 bits `0x01`). -/
def entryTopBits : MemorySegmentEntryHeader :=
  { size := 1000
    status := EntryStatus.ready
    computeThreadMagic := 0
    lruNode := { prev := none, next := none, hash := 2 ^ 56 }
    tileIndices := []
    pluginID := "p"
    properties := [(kNatronIPCPropertyHash, 2 ^ 56)] }

/-- A cache whose bucket 1 — the shard addressed by the top 8 bits of the
key `2 ^ 56` — holds the entry keyed `2 ^ 56`. -/
def stTopBits : CacheState :=
  { buckets := fun j =>
      if j = 1 then { emptyBucket with entriesMap := [(2 ^ 56, entryTopBits)] }
      else emptyBucket
    tilesStorageCount := 1
    maximumSize := 0
    useTileStorage := true }

/-- A Ready entry with hash 7 owning one tile (tile index 3 of file 0). -/
def entryWithTile : MemorySegmentEntryHeader :=
  { size := 1000
    status := EntryStatus.ready
    computeThreadMagic := 0
    lruNode := { prev := none, next := none, hash := 7 }
    tileIndices := [encodeTileIndex 3 0]
    pluginID := "p"
    properties := [(kNatronIPCPropertyHash, 7)] }

/-- A cache whose bucket 7 holds the tile-owning entry with hash 7. -/
def stWithTile : CacheState :=
  { buckets := fun j =>
      if j = 7 then
        { lruListFront := some 7
          lruListBack := some 7
          size := 1000 + NATRON_TILE_SIZE_BYTES
          entriesMap := [(7, entryWithTile)]
          freeTiles := [] }
      else emptyBucket
    tilesStorageCount := 1
    maximumSize := 0
    useTileStorage := true }

/-- Three racing callers with magics 1, 2, 3, none having looked up yet. -/
def threeCallers : List RaceCaller :=
  [{ magic := 1, status := none },
   { magic := 2, status := none },
   { magic := 3, status := none }]

/-- A race of three callers on key 5: all three look up, then callers 1 and
2 — both having waited 100 ms against a 10 ms timeout — re-poll. -/
def takeoverTrace : List RaceEvent :=
  [RaceEvent.look 0 0 0,
   RaceEvent.look 1 0 0,
   RaceEvent.look 2 0 0,
   RaceEvent.look 1 100 10,
   RaceEvent.look 2 100 10]

/-! ## Helper lemmas on the map and bucket operations -/

theorem updBucket_self (bs : Nat → CacheBucketIPCData) (i : Nat)
    (b : CacheBucketIPCData) : updBucket bs i b i = b := by
  simp [updBucket]

theorem updBucket_ne (bs : Nat → CacheBucketIPCData) (i : Nat)
    (b : CacheBucketIPCData) (j : Nat) (h : j ≠ i) :
    updBucket bs i b j = bs j := by
  simp [updBucket, h]

theorem mapFind?_mapSet (l : List (Nat × MemorySegmentEntryHeader))
    (k : Nat) (e : MemorySegmentEntryHeader) (h : Nat) :
    mapFind? (mapSet l k e) h =
      if h = k then (mapFind? l k).map (fun _ => e) else mapFind? l h := by
  induction l with
  | nil => by_cases hk : h = k <;> simp [mapFind?, mapSet, hk]
  | cons p t ih =>
    obtain ⟨k', e'⟩ := p
    by_cases h1 : k' = k
    · subst h1
      by_cases h2 : h = k'
      · subst h2; simp [mapFind?, mapSet]
      · simp [mapFind?, mapSet, h2, Ne.symm h2]
    · by_cases h2 : k' = h
      · subst h2
        have h3 : ¬k' = k := h1
        simp [mapFind?, mapSet, h1, Ne.symm h3]
      · simp [mapFind?, mapSet, h1, h2, ih]

theorem mapFind?_mapSet_core (l : List (Nat × MemorySegmentEntryHeader))
    (k : Nat) (e e0 : MemorySegmentEntryHeader) (h : Nat)
    (hco : entryCore e = entryCore e0) (hk : mapFind? l k = some e0) :
    (mapFind? (mapSet l k e) h).map entryCore =
      (mapFind? l h).map entryCore := by
  rw [mapFind?_mapSet]
  by_cases hh : h = k
  · subst hh
    simp [hk, hco]
  · simp [hh]

theorem keys_mapSet (l : List (Nat × MemorySegmentEntryHeader)) (k : Nat)
    (e : MemorySegmentEntryHeader) :
    (mapSet l k e).map Prod.fst = l.map Prod.fst := by
  induction l with
  | nil => simp [mapSet]
  | cons p t ih =>
    obtain ⟨k', e'⟩ := p
    by_cases h1 : k' = k <;> simp [mapSet, h1, ih]

theorem mapFind?_eq_none_of_not_mem_keys
    (l : List (Nat × MemorySegmentEntryHeader)) (h : Nat)
    (hnm : h ∉ l.map Prod.fst) : mapFind? l h = none := by
  induction l with
  | nil => simp [mapFind?]
  | cons p t ih =>
    obtain ⟨k', e'⟩ := p
    simp only [List.map_cons, List.mem_cons] at hnm
    push_neg at hnm
    simp [mapFind?, Ne.symm hnm.1, ih hnm.2]

theorem mapFind?_mapErase_self (l : List (Nat × MemorySegmentEntryHeader))
    (h : Nat) (hnd : (l.map Prod.fst).Nodup) :
    mapFind? (mapErase l h) h = none := by
  induction l with
  | nil => simp [mapErase, mapFind?]
  | cons p t ih =>
    obtain ⟨k', e'⟩ := p
    simp only [List.map_cons, List.nodup_cons] at hnd
    by_cases h1 : k' = h
    · subst h1
      simpa [mapErase] using mapFind?_eq_none_of_not_mem_keys t k' hnd.1
    · simp [mapErase, mapFind?, h1, ih hnd.2]

theorem nodeOpOnly_refl (b : CacheBucketIPCData) : NodeOpOnly b b :=
  ⟨rfl, fun _ => rfl, rfl, rfl, rfl, rfl⟩

theorem nodeOpOnly_trans {a b c : CacheBucketIPCData}
    (h1 : NodeOpOnly a b) (h2 : NodeOpOnly b c) : NodeOpOnly a c := by
  obtain ⟨k1, c1, s1, f1, lf1, lb1⟩ := h1
  obtain ⟨k2, c2, s2, f2, lf2, lb2⟩ := h2
  exact ⟨k2.trans k1, fun h => (c2 h).trans (c1 h), s2.trans s1, f2.trans f1,
    lf2.trans lf1, lb2.trans lb1⟩

theorem nodeOpOnly_setNode (b : CacheBucketIPCData) (k : Nat)
    (n : LRUListNode) : NodeOpOnly b (setNode b k n) := by
  cases hfind : mapFind? b.entriesMap k with
  | none => simp only [setNode, hfind]; exact nodeOpOnly_refl b
  | some e =>
    refine ⟨?_, ?_, ?_, ?_, ?_, ?_⟩ <;> simp only [setNode, hfind, keys_mapSet]
    intro h
    exact mapFind?_mapSet_core _ _ _ e _ rfl hfind

theorem nodeOpOnly_setNodePrev (b : CacheBucketIPCData) (k : Nat)
    (p : Option Nat) : NodeOpOnly b (setNodePrev b k p) := by
  cases hn : getNode b k with
  | none => simp only [setNodePrev, hn]; exact nodeOpOnly_refl b
  | some n => simp only [setNodePrev, hn]; exact nodeOpOnly_setNode b k _

theorem nodeOpOnly_setNodeNext (b : CacheBucketIPCData) (k : Nat)
    (p : Option Nat) : NodeOpOnly b (setNodeNext b k p) := by
  cases hn : getNode b k with
  | none => simp only [setNodeNext, hn]; exact nodeOpOnly_refl b
  | some n => simp only [setNodeNext, hn]; exact nodeOpOnly_setNode b k _

theorem nodeOpOnly_disconnect (b : CacheBucketIPCData) (k : Nat) :
    NodeOpOnly b (disconnectLinkedListNode b k) := by
  cases hn : getNode b k with
  | none => simp only [disconnectLinkedListNode, hn]; exact nodeOpOnly_refl b
  | some node =>
    simp only [disconnectLinkedListNode, hn]
    have h1 : NodeOpOnly b (match node.prev with
        | some p => setNodeNext b p node.next
        | none => b) := by
      cases node.prev with
      | none => exact nodeOpOnly_refl b
      | some p => exact nodeOpOnly_setNodeNext b p node.next
    refine nodeOpOnly_trans h1 (nodeOpOnly_trans (nodeOpOnly_setNodePrev _ k none)
      (nodeOpOnly_trans ?_ (nodeOpOnly_setNodeNext _ k none)))
    cases node.next with
    | none => exact nodeOpOnly_refl _
    | some nx => exact nodeOpOnly_setNodePrev _ nx none

theorem nodeOpOnly_insertNode (b : CacheBucketIPCData) (k : Nat)
    (prev nx : Option Nat) : NodeOpOnly b (insertLinkedListNode b k prev nx) := by
  simp only [insertLinkedListNode]
  have h1 : NodeOpOnly b (match prev with
      | some p => setNodeNext b p (some k)
      | none => b) := by
    cases prev with
    | none => exact nodeOpOnly_refl b
    | some p => exact nodeOpOnly_setNodeNext b p (some k)
  refine nodeOpOnly_trans h1 (nodeOpOnly_trans (nodeOpOnly_setNodePrev _ k prev)
    (nodeOpOnly_trans ?_ (nodeOpOnly_setNodeNext _ k nx)))
  cases nx with
  | none => exact nodeOpOnly_refl _
  | some n => exact nodeOpOnly_setNodePrev _ n (some k)

/-! ## Lemmas on the tile-release loop -/

theorem mem_setInsert (l : List Nat) (x y : Nat) :
    y ∈ setInsert l x ↔ y ∈ l ∨ y = x := by
  by_cases hx : x ∈ l
  · simp only [setInsert, if_pos hx]
    constructor
    · exact Or.inl
    · rintro (h | rfl) <;> assumption
  · simp [setInsert, if_neg hx]

theorem freeOneTile_components (bs : Nat → CacheBucketIPCData) (t j : Nat) :
    ((freeOneTile bs t) j).entriesMap = (bs j).entriesMap ∧
    ((freeOneTile bs t) j).size = (bs j).size ∧
    ((freeOneTile bs t) j).lruListFront = (bs j).lruListFront ∧
    ((freeOneTile bs t) j).lruListBack = (bs j).lruListBack := by
  by_cases hj : j = tileIndexOfEncoded t % NATRON_NUM_TILES_PER_BUCKET_FILE
  · subst hj; simp [freeOneTile, updBucket]
  · simp [freeOneTile, updBucket, hj]

theorem freeTileList_components (bs : Nat → CacheBucketIPCData)
    (ts : List Nat) (j : Nat) :
    ((freeTileList bs ts) j).entriesMap = (bs j).entriesMap ∧
    ((freeTileList bs ts) j).size = (bs j).size ∧
    ((freeTileList bs ts) j).lruListFront = (bs j).lruListFront ∧
    ((freeTileList bs ts) j).lruListBack = (bs j).lruListBack := by
  induction ts generalizing bs with
  | nil => simp [freeTileList]
  | cons t rest ih =>
    obtain ⟨h1, h2, h3, h4⟩ := ih (freeOneTile bs t)
    obtain ⟨g1, g2, g3, g4⟩ := freeOneTile_components bs t j
    exact ⟨by rw [freeTileList, h1, g1], by rw [freeTileList, h2, g2],
      by rw [freeTileList, h3, g3], by rw [freeTileList, h4, g4]⟩

theorem freeTiles_freeOneTile_mono (bs : Nat → CacheBucketIPCData)
    (t j x : Nat) (hx : x ∈ (bs j).freeTiles) :
    x ∈ ((freeOneTile bs t) j).freeTiles := by
  by_cases hj : j = tileIndexOfEncoded t % NATRON_NUM_TILES_PER_BUCKET_FILE
  · subst hj
    simp only [freeOneTile, updBucket_self]
    exact (mem_setInsert _ _ _).2 (Or.inl hx)
  · simpa [freeOneTile, updBucket, hj] using hx

theorem freeTiles_freeTileList_mono (bs : Nat → CacheBucketIPCData)
    (ts : List Nat) (j x : Nat) (hx : x ∈ (bs j).freeTiles) :
    x ∈ ((freeTileList bs ts) j).freeTiles := by
  induction ts generalizing bs with
  | nil => simpa [freeTileList] using hx
  | cons t rest ih =>
    exact ih (freeOneTile bs t) (freeTiles_freeOneTile_mono bs t j x hx)

/-- Every released tile ends up in the free set of the bucket
`tileIndex % NATRON_NUM_TILES_PER_BUCKET_FILE`. -/
theorem mem_freeTileList (bs : Nat → CacheBucketIPCData) (ts : List Nat)
    (t : Nat) (ht : t ∈ ts) :
    t ∈ ((freeTileList bs ts)
      (tileIndexOfEncoded t % NATRON_NUM_TILES_PER_BUCKET_FILE)).freeTiles := by
  induction ts generalizing bs with
  | nil => cases ht
  | cons t0 rest ih =>
    rcases List.mem_cons.1 ht with rfl | hmem
    · refine freeTiles_freeTileList_mono (freeOneTile bs t) rest _ t ?_
      simp only [freeOneTile, updBucket_self]
      exact (mem_setInsert _ _ _).2 (Or.inr rfl)
    · exact ih (freeOneTile bs t0) hmem

/-! ## Lemmas on entry deallocation -/

theorem fixLruEndpoints_components (b : CacheBucketIPCData) (hash : Nat)
    (node : LRUListNode) :
    (fixLruEndpoints b hash node).entriesMap = b.entriesMap ∧
    (fixLruEndpoints b hash node).freeTiles = b.freeTiles ∧
    (fixLruEndpoints b hash node).size = b.size := by
  simp only [fixLruEndpoints]
  split <;> split <;> exact ⟨rfl, rfl, rfl⟩

theorem deallocLruAndErase_spec (b : CacheBucketIPCData) (hash : Nat)
    (f : LRUListNode) :
    (deallocLruAndErase b hash f).freeTiles = b.freeTiles ∧
    (deallocLruAndErase b hash f).size = b.size ∧
    ((b.entriesMap.map Prod.fst).Nodup →
      mapFind? (deallocLruAndErase b hash f).entriesMap hash = none) := by
  simp only [deallocLruAndErase]
  obtain ⟨h6e, h6f, h6s⟩ := fixLruEndpoints_components b hash
    (((mapFind? b.entriesMap hash).map (fun e4 => e4.lruNode)).getD f)
  obtain ⟨kd, _, sd, fd, _, _⟩ :=
    nodeOpOnly_disconnect (fixLruEndpoints b hash _) hash
  refine ⟨by rw [fd, h6f], by rw [sd, h6s], fun hnd => ?_⟩
  apply mapFind?_mapErase_self
  rw [kd, h6e]
  exact hnd

theorem deallocTiles_spec (st : CacheState) (i hash : Nat)
    (e : MemorySegmentEntryHeader) :
    (((deallocTiles st i hash e).buckets i).entriesMap.map Prod.fst =
      ((st.buckets i).entriesMap).map Prod.fst) ∧
    ∀ t ∈ e.tileIndices,
      t ∈ ((deallocTiles st i hash e).buckets
        (tileIndexOfEncoded t % NATRON_NUM_TILES_PER_BUCKET_FILE)).freeTiles := by
  by_cases hte : e.tileIndices = []
  · refine ⟨by simp [deallocTiles, hte], ?_⟩
    intro t ht
    rw [hte] at ht
    cases ht
  · simp only [deallocTiles, if_neg hte]
    -- the buckets after billing the tile bytes
    have hfc := freeTileList_components
      (updBucket st.buckets i
        { st.buckets i with
          size := subU64 (st.buckets i).size
            (e.tileIndices.length * NATRON_TILE_SIZE_BYTES) })
      e.tileIndices
    cases hfind : mapFind?
        ((freeTileList (updBucket st.buckets i
          { st.buckets i with
            size := subU64 (st.buckets i).size
              (e.tileIndices.length * NATRON_TILE_SIZE_BYTES) })
          e.tileIndices) i).entriesMap hash with
    | none =>
      simp only [hfind]
      constructor
      · rw [(hfc i).1, updBucket_self]
      · intro t ht
        exact mem_freeTileList _ e.tileIndices t ht
    | some e3 =>
      simp only [hfind]
      constructor
      · rw [updBucket_self, keys_mapSet, (hfc i).1, updBucket_self]
      · intro t ht
        by_cases hj : tileIndexOfEncoded t % NATRON_NUM_TILES_PER_BUCKET_FILE = i
        · rw [hj, updBucket_self]
          have := mem_freeTileList
            (updBucket st.buckets i
              { st.buckets i with
                size := subU64 (st.buckets i).size
                  (e.tileIndices.length * NATRON_TILE_SIZE_BYTES) })
            e.tileIndices t ht
          rw [hj] at this
          exact this
        · rw [updBucket_ne _ _ _ _ hj]
          exact mem_freeTileList _ e.tileIndices t ht

/-- What `deallocateCacheEntryImpl` guarantees about the entry it removes:
the key is gone from the bucket's map (when the bucket's keys were unique),
and every tile the entry owned is back in the free set of the bucket
recomputed from its tile index. -/
theorem dealloc_spec (st : CacheState) (i hash : Nat)
    (e : MemorySegmentEntryHeader)
    (hfound : mapFind? (st.buckets i).entriesMap hash = some e) :
    ((((st.buckets i).entriesMap.map Prod.fst).Nodup →
      mapFind? ((deallocateCacheEntryImpl st i hash).buckets i).entriesMap
        hash = none) ∧
    ∀ t ∈ e.tileIndices,
      t ∈ ((deallocateCacheEntryImpl st i hash).buckets
        (tileIndexOfEncoded t % NATRON_NUM_TILES_PER_BUCKET_FILE)).freeTiles) := by
  simp only [deallocateCacheEntryImpl, hfound]
  set b1 : CacheBucketIPCData := { st.buckets i with size := subU64 (st.buckets i).size e.size } with hb1
  set st1 : CacheState := { st with buckets := updBucket st.buckets i b1 } with hst1
  obtain ⟨hkeys, htiles⟩ := deallocTiles_spec st1 i hash e
  obtain ⟨hfree, hsize, herase⟩ := deallocLruAndErase_spec
    ((deallocTiles st1 i hash e).buckets i) hash e.lruNode
  constructor
  · intro hnd
    rw [updBucket_self]
    apply herase
    rw [hkeys]
    simp only [hst1, hb1, updBucket_self]
    exact hnd
  · intro t ht
    by_cases hj : tileIndexOfEncoded t % NATRON_NUM_TILES_PER_BUCKET_FILE = i
    · rw [hj, updBucket_self, hfree]
      have := htiles t ht
      rw [hj] at this
      exact this
    · rw [updBucket_ne _ _ _ _ hj]
      exact htiles t ht

/-! ## Claim C1 -/

/-- C1, amended: the cache operations address the shard whose index is the
**bottom** 8 bits of the key — `getBucketCacheBucketIndex k = k % 256` (the
source instantiates `getBucketStorageIndex` at level 7, the right-most two
hexadecimal digits, not level 0) — and `hasCacheEntryForHash` looks the key
up in exactly that shard. -/
theorem c1_shard_index_is_low_8_bits (k : Nat) (st : CacheState) :
    getBucketCacheBucketIndex k = k % 256 ∧
    hasCacheEntryForHash st k =
      (mapFind? ((st.buckets (k % 256)).entriesMap) k).isSome := by
  have h1 : getBucketCacheBucketIndex k = k % 256 := by
    simp only [getBucketCacheBucketIndex, getBucketStorageIndex,
      NATRON_CACHE_BUCKETS_N_DIGITS, U64MOD]
    norm_num
    have hmask : (18446744073709551615 : Nat) >>> 56 = 2 ^ 8 - 1 := by decide
    rw [hmask, Nat.and_pow_two_sub_one_eq_mod]
  exact ⟨h1, by rw [hasCacheEntryForHash, h1]⟩

/-- C1, counterexample: for the key `2 ^ 56` (top 8 bits = 1), an entry
stored in shard 1 — the shard the claim designates — is not found by
`hasCacheEntryForHash`, because the code addresses shard
`2 ^ 56 &&& 0xff = 0`. -/
theorem c1_counterexample :
    ((2 ^ 56 : Nat) >>> 56 = 1) ∧
    (mapFind? ((stTopBits.buckets ((2 ^ 56 : Nat) >>> 56)).entriesMap)
      (2 ^ 56)).isSome = true ∧
    hasCacheEntryForHash stTopBits (2 ^ 56) = false ∧
    getBucketCacheBucketIndex (2 ^ 56) = 0 := by
  refine ⟨by decide, ?_, ?_, by decide⟩
  · decide
  · decide

/-! ## Claim C10 -/

/-- C10: when the configured maximum cache size is 0, `evictLRUEntries`
returns at once without touching the cache — zero means "no limit". -/
theorem c10_zero_max_size_means_no_limit (st : CacheState) (nBytesToFree : Nat)
    (h : st.maximumSize = 0) : evictLRUEntries st nBytesToFree = st := by
  simp [evictLRUEntries, h]

/-- Witness for C10 at a concrete state. -/
theorem c10_zero_max_size_means_no_limit_witness :
    emptyCacheState.maximumSize = 0 ∧
    evictLRUEntries emptyCacheState 12345 = emptyCacheState :=
  ⟨rfl, c10_zero_max_size_means_no_limit emptyCacheState 12345 rfl⟩

/-! ## Claim C2 -/

theorem evictBucketOnce_skip (st : CacheState) (i : Nat)
    (h : (st.buckets i).lruListFront = none) :
    evictBucketOnce st i = (st, none) := by
  simp [evictBucketOnce, h]

theorem evictFold_skip (st : CacheState) (cur : Nat) (fl : Bool)
    (l : List Nat) (h : ∀ i ∈ l, (st.buckets i).lruListFront = none) :
    l.foldl evictStep (st, cur, fl) = (st, cur, fl) := by
  induction l with
  | nil => rfl
  | cons j rest ih =>
    have hj := h j (List.mem_cons_self j rest)
    simp only [List.foldl_cons, evictStep, evictBucketOnce_skip st j hj]
    exact ih (fun i hi => h i (List.mem_cons_of_mem j hi))

theorem evictRound_zero (st st' : CacheState) (cur a b : Nat)
    (h0 : evictBucketOnce st 0 = (st', some (a, b)))
    (hothers : ∀ i, i ≠ 0 → (st'.buckets i).lruListFront = none) :
    evictRound st cur = (st', subU64 (subU64 cur a) b, true) := by
  have hsp : List.range NATRON_CACHE_BUCKETS_COUNT =
      0 :: (List.range 255).map Nat.succ := by
    rw [NATRON_CACHE_BUCKETS_COUNT]
    exact List.range_succ_eq_map 255
  rw [evictRound, hsp, List.foldl_cons]
  have hstep : evictStep (st, cur, false) 0 =
      (st', subU64 (subU64 cur a) b, true) := by
    simp only [evictStep, h0]
  rw [hstep]
  apply evictFold_skip
  intro i hi
  rcases List.mem_map.1 hi with ⟨k, _, rfl⟩
  exact hothers _ (Nat.succ_ne_zero k)

theorem evictRound_none (st : CacheState) (cur : Nat)
    (h : ∀ i, (st.buckets i).lruListFront = none) :
    evictRound st cur = (st, cur, false) :=
  evictFold_skip st cur false _ (fun i _ => h i)

theorem getCurrentSize_aux (st : CacheState) (n : Nat)
    (h : ∀ i, i ≠ 0 → (st.buckets i).size = 0)
    (hlt : (st.buckets 0).size < U64MOD) :
    (List.range n).foldl (fun acc i => addU64 acc (st.buckets i).size) 0
      = if n = 0 then 0 else (st.buckets 0).size := by
  induction n with
  | zero => simp
  | succ m ih =>
    rw [List.range_succ, List.foldl_append, ih]
    by_cases hm : m = 0
    · subst hm
      simp [addU64, Nat.mod_eq_of_lt hlt]
    · simp [hm, h m hm, addU64, Nat.mod_eq_of_lt hlt,
        Nat.mod_eq_of_lt (Nat.lt_of_le_of_lt (Nat.zero_le _) hlt)]

theorem getCurrentSize_single (st : CacheState)
    (h : ∀ i, i ≠ 0 → (st.buckets i).size = 0)
    (hlt : (st.buckets 0).size < U64MOD) :
    getCurrentSize st = (st.buckets 0).size := by
  have := getCurrentSize_aux st NATRON_CACHE_BUCKETS_COUNT h hlt
  rw [getCurrentSize, this]
  norm_num [NATRON_CACHE_BUCKETS_COUNT]

theorem totalEntries_aux (st : CacheState) (n : Nat)
    (h : ∀ i, i ≠ 0 → (st.buckets i).entriesMap = []) :
    (List.range n).foldl (fun acc i => acc + (st.buckets i).entriesMap.length) 0
      = if n = 0 then 0 else (st.buckets 0).entriesMap.length := by
  induction n with
  | zero => simp
  | succ m ih =>
    rw [List.range_succ, List.foldl_append, ih]
    by_cases hm : m = 0
    · subst hm; simp
    · simp [hm, h m hm]

theorem totalEntries_single (st : CacheState)
    (h : ∀ i, i ≠ 0 → (st.buckets i).entriesMap = []) :
    totalEntries st = (st.buckets 0).entriesMap.length := by
  have := totalEntries_aux st NATRON_CACHE_BUCKETS_COUNT h
  rw [totalEntries, this]
  norm_num [NATRON_CACHE_BUCKETS_COUNT]

theorem dealloc_buckets_other (st : CacheState) (i hash j : Nat) (hj : j ≠ i)
    (htile : ∀ e, mapFind? (st.buckets i).entriesMap hash = some e →
      e.tileIndices = []) :
    (deallocateCacheEntryImpl st i hash).buckets j = st.buckets j := by
  cases hfound : mapFind? (st.buckets i).entriesMap hash with
  | none => simp [deallocateCacheEntryImpl, hfound]
  | some e =>
    have ht := htile e hfound
    simp only [deallocateCacheEntryImpl, hfound, deallocTiles, ht, if_pos]
    rw [updBucket_ne _ _ _ _ hj, updBucket_ne _ _ _ _ hj]

/-- C2, failing run: `stTwoEntries` holds two Ready 1000-byte entries in
bucket 0 and `maximumSize = 500`. `evictLRUEntries 0` evicts the front
entry of the round, then stops: removing the front entry set `lruListFront`
to the node's `prev` (null) instead of its `next`, so the next round finds
no front node, evicts nothing and breaks out. The final size (1000) is
above the target (500) while bucket 0's LRU list still holds the entry 512
(`lruListBack` points at it) — the claimed disjunction fails. -/
theorem c2_eviction_stops_above_target :
    stTwoEntries.maximumSize = 500 ∧
    getCurrentSize (evictLRUEntries stTwoEntries 0) = 1000 ∧
    ((evictLRUEntries stTwoEntries 0).buckets 0).lruListBack = some 512 ∧
    (mapFind? ((evictLRUEntries stTwoEntries 0).buckets 0).entriesMap
      512).isSome = true ∧
    ((evictLRUEntries stTwoEntries 0).buckets 0).lruListFront = none := by
  set stA := deallocateCacheEntryImpl stTwoEntries 0 256 with hstA
  have hEvB : evictBucketOnce stTwoEntries 0 = (stA, some (1000, 0)) := by
    have h1 : stTwoEntries.buckets 0 = bucketTwoEntries := rfl
    have h2 : bucketTwoEntries.lruListFront = some 256 := rfl
    have h3 : getNode bucketTwoEntries 256 = some entryA.lruNode := by decide
    have h4 : entryA.lruNode.hash = 256 := rfl
    have h5 : mapFind? bucketTwoEntries.entriesMap 256 = some entryA := by decide
    simp only [evictBucketOnce, h1, h2, h3, h4, h5]
    norm_num [entryA, hstA]
  have hA0f : (stA.buckets 0).lruListFront = none := by rw [hstA]; decide
  have hA0b : (stA.buckets 0).lruListBack = some 512 := by rw [hstA]; decide
  have hA0s : (stA.buckets 0).size = 1000 := by rw [hstA]; decide
  have hA0e : (mapFind? (stA.buckets 0).entriesMap 512).isSome = true := by
    rw [hstA]; decide
  have hAi : ∀ i, i ≠ 0 → stA.buckets i = emptyBucket := by
    intro i hi
    rw [hstA, dealloc_buckets_other stTwoEntries 0 256 i hi]
    · simp [stTwoEntries, hi]
    · intro e he
      have h5 : mapFind? (stTwoEntries.buckets 0).entriesMap 256 = some entryA := by decide
      rw [h5] at he
      rw [(Option.some.inj he).symm]
      rfl
  have hfrA : ∀ i, (stA.buckets i).lruListFront = none := by
    intro i
    by_cases hi : i = 0
    · rw [hi]; exact hA0f
    · rw [hAi i hi]; rfl
  have hgs0 : getCurrentSize stTwoEntries = 2000 := by
    have h : ∀ i, i ≠ 0 → (stTwoEntries.buckets i).size = 0 := by
      intro i hi; simp [stTwoEntries, hi, emptyBucket]
    have hlt : (stTwoEntries.buckets 0).size < U64MOD := by decide
    rw [getCurrentSize_single stTwoEntries h hlt]
    rfl
  have htot : totalEntries stTwoEntries = 2 := by
    have h : ∀ i, i ≠ 0 → (stTwoEntries.buckets i).entriesMap = [] := by
      intro i hi; simp [stTwoEntries, hi, emptyBucket]
    rw [totalEntries_single stTwoEntries h]
    rfl
  have hgsA : getCurrentSize stA = 1000 := by
    have h : ∀ i, i ≠ 0 → (stA.buckets i).size = 0 := by
      intro i hi; rw [hAi i hi]; rfl
    have hlt : (stA.buckets 0).size < U64MOD := by
      rw [hA0s]; norm_num [U64MOD]
    rw [getCurrentSize_single stA h hlt, hA0s]
  have hRound1 : evictRound stTwoEntries 2000 = (stA, 1000, true) := by
    have := evictRound_zero stTwoEntries stA 2000 1000 0 hEvB
      (fun i hi => hfrA i)
    rw [this]
    norm_num [subU64, U64MOD]
  have hRound2 : evictRound stA 1000 = (stA, 1000, false) :=
    evictRound_none stA 1000 hfrA
  have hloop3 : evictLoop (2 + 1) stTwoEntries 2000 500 = stA := by
    rw [evictLoop]
    rw [if_neg (by norm_num : ¬(2000 : Nat) ≤ 500)]
    rw [hRound1]
    rw [if_neg (by norm_num : ¬(true = false))]
    rw [evictLoop]
    rw [if_neg (by norm_num : ¬(1000 : Nat) ≤ 500)]
    rw [hRound2]
    rw [if_pos rfl]
  have hmain : evictLRUEntries stTwoEntries 0 = stA := by
    have hms : stTwoEntries.maximumSize = 500 := rfl
    simp only [evictLRUEntries, hms]
    rw [if_neg (by norm_num : ¬(500 = 0))]
    rw [hgs0, htot]
    rw [if_neg (by norm_num : ¬(0 : Nat) ≥ 500)]
    norm_num
    exact hloop3
  rw [hmain]
  exact ⟨rfl, hgsA, hA0b, hA0e, hA0f⟩

/-! ## Claim C3 -/

/-- C3, failing run: removing the front entry (256) of bucket 0's
two-element LRU list `[256, 512]` via `removeEntry` leaves
`lruListFront = none` — the source assigns the removed node's `prev`
instead of its `next` (Cache.cpp:1899) — while the remaining entry 512 is
still in the list (`lruListBack = some 512`): the front pointer is not
updated to the adjacent remaining node. -/
theorem c3_front_removal_loses_front_pointer :
    ((removeEntry stTwoEntries 256).buckets 0).lruListFront = none ∧
    ((removeEntry stTwoEntries 256).buckets 0).lruListBack = some 512 ∧
    (mapFind? ((removeEntry stTwoEntries 256).buckets 0).entriesMap
      512).isSome = true := by
  refine ⟨?_, ?_, ?_⟩ <;> decide

/-! ## Claim C4 -/

/-- C4, failing run: `Cache::get` on an empty cache reserves a Pending
entry with `byte_size = 1000` without billing the bucket
(`lookupAndCreate` does not touch `ipc->size`), so the claimed equality
already fails for the Pending entry; destroying the locker without
inserting then runs `deallocateCacheEntryImpl`, which unconditionally
subtracts the 1000 bytes that were never added: the bucket size underflows
to `2 ^ 64 - 1000` instead of returning to 0. -/
theorem c4_rollback_underflows_shard_size :
    (cacheGet emptyCacheState 5 7 false 1000 "plug" true
      FromMemorySegmentRetCode.ok 5).2 = CacheEntryStatus.mustCompute ∧
    ((cacheGet emptyCacheState 5 7 false 1000 "plug" true
      FromMemorySegmentRetCode.ok 5).1.buckets 5).size = 0 ∧
    ((mapFind? ((cacheGet emptyCacheState 5 7 false 1000 "plug" true
      FromMemorySegmentRetCode.ok 5).1.buckets 5).entriesMap 5).map
        (fun e => (e.status, e.size))) = some (EntryStatus.pending, 1000) ∧
    ((lockerDestroy (cacheGet emptyCacheState 5 7 false 1000 "plug" true
      FromMemorySegmentRetCode.ok 5).1 5 CacheEntryStatus.mustCompute).buckets
        5).size = 2 ^ 64 - 1000 := by
  refine ⟨?_, ?_, ?_, ?_⟩ <;> decide

/-! ## Claim C6 -/

/-- C6, amended: when a caller whose wait timeout has expired finds the
key\'s entry Pending with a foreign owner during the write-path look-up, it
takes over the entry: the entry stays Pending and the caller\'s locker
status becomes MustCompute — but the entry\'s `computeThreadMagic` is left
**unchanged** (it still carries the previous owner\'s tag; the takeover
branch at Cache.cpp:2076-2082 only assigns the status field), so the entry
is returned completely unmodified. -/
theorem c6_takeover_keeps_foreign_owner_tag (st : CacheState)
    (i hash curMagic : Nat) (allowMultipleFetch removeIfOOM : Bool)
    (timeSpentWaiting timeout : Nat) (fromMemSeg : FromMemorySegmentRetCode)
    (hashOfDeserialized : Nat) (e : MemorySegmentEntryHeader)
    (hfound : mapFind? ((st.buckets i).entriesMap) hash = some e)
    (hpend : e.status = EntryStatus.pending)
    (hforeign : e.computeThreadMagic ≠ curMagic)
    (hto : timeout ≠ 0) (hexp : ¬ timeSpentWaiting < timeout) :
    (lookupAndSetStatusInternal st i hash curMagic allowMultipleFetch true
      removeIfOOM timeSpentWaiting timeout fromMemSeg
      hashOfDeserialized).2.1 = CacheEntryStatus.mustCompute ∧
    (lookupAndSetStatusInternal st i hash curMagic allowMultipleFetch true
      removeIfOOM timeSpentWaiting timeout fromMemSeg
      hashOfDeserialized).2.2 = LookUpRetCode.found ∧
    mapFind? ((((lookupAndSetStatusInternal st i hash curMagic
      allowMultipleFetch true removeIfOOM timeSpentWaiting timeout fromMemSeg
      hashOfDeserialized).1).buckets i).entriesMap) hash = some e := by
  have hc1 : ¬(e.status = EntryStatus.null ∧ (true : Bool) = false) := by
    simp
  have hc2 : ¬(e.status = EntryStatus.pending ∧
      ¬((allowMultipleFetch = false ∧ e.computeThreadMagic = curMagic)) ∧
      (timeout = 0 ∨ timeSpentWaiting < timeout)) := by
    rintro ⟨-, -, h | h⟩
    · exact hto h
    · exact hexp h
  have hc3 : ¬(e.status = EntryStatus.pending ∧ (true : Bool) = false) := by
    simp
  have hc4 : ¬(e.status = EntryStatus.ready) := by
    rw [hpend]; intro h; cases h
  have hee : { e with status := EntryStatus.pending } = e := by
    cases e
    simp only at hpend
    rw [hpend]
  simp only [lookupAndSetStatusInternal, hfound, if_neg hc1, if_neg hc2,
    if_neg hc3, if_neg hc4, hee]
  refine ⟨trivial, trivial, ?_⟩
  rw [updBucket_self, mapFind?_mapSet, if_pos rfl, hfound]
  rfl

/-- C6, counterexample: in `stPendingForeign` (entry 5 Pending, owner tag
42), the thread with magic 7 whose timeout of 10 ms has expired after
waiting 100 ms takes over: it obtains MustCompute, yet the entry\'s owner
tag is still 42, not 7 — refuting "the entry\'s owner_tag is set to the
current thread". -/
theorem c6_counterexample :
    (lookupAndSetStatusInternal stPendingForeign 5 5 7 false true false 100
      10 FromMemorySegmentRetCode.ok 5).2.1 = CacheEntryStatus.mustCompute ∧
    ((mapFind? ((((lookupAndSetStatusInternal stPendingForeign 5 5 7 false
      true false 100 10 FromMemorySegmentRetCode.ok 5).1).buckets
        5).entriesMap) 5).map
      (fun e => (e.status, e.computeThreadMagic))) =
      some (EntryStatus.pending, 42) ∧
    (42 : Nat) ≠ 7 := by
  refine ⟨?_, ?_, by decide⟩ <;> decide

/-- Witness for C6 at the concrete state `stPendingForeign`. -/
theorem c6_takeover_keeps_foreign_owner_tag_witness :
    (lookupAndSetStatusInternal stPendingForeign 5 5 7 false true
      false 100 10 FromMemorySegmentRetCode.ok 5).2.1 =
        CacheEntryStatus.mustCompute ∧
    (lookupAndSetStatusInternal stPendingForeign 5 5 7 false true
      false 100 10 FromMemorySegmentRetCode.ok 5).2.2 = LookUpRetCode.found ∧
    mapFind? ((((lookupAndSetStatusInternal stPendingForeign 5 5 7 false
      true false 100 10 FromMemorySegmentRetCode.ok 5).1).buckets
        5).entriesMap) 5 = some entryPendingForeign :=
  c6_takeover_keeps_foreign_owner_tag stPendingForeign 5 5 7 false false 100
    10 FromMemorySegmentRetCode.ok 5 entryPendingForeign (by decide) rfl
    (by decide) (by decide) (by decide)

/-! ## Claim C7 -/

/-- C7: destroying a locker in Cached status changes no cache state;
destroying one in MustCompute when the entry is gone (cache wiped in
between) changes nothing; destroying one in MustCompute with the entry
present deallocates the reserved entry — its key (and with it its header
and intrusive LRU node) is erased from the entries map and every tile it
owned is returned to the free set of the tile\'s bucket. -/
theorem c7_locker_drop_rolls_back (st : CacheState) (hash : Nat)
    (e : MemorySegmentEntryHeader)
    (hfound : mapFind? ((st.buckets
      (getBucketCacheBucketIndex hash)).entriesMap) hash = some e)
    (hnodup : (((st.buckets
      (getBucketCacheBucketIndex hash)).entriesMap).map Prod.fst).Nodup) :
    (lockerDestroy st hash CacheEntryStatus.cached = st) ∧
    (∀ st2 : CacheState,
      mapFind? ((st2.buckets (getBucketCacheBucketIndex hash)).entriesMap)
        hash = none →
      lockerDestroy st2 hash CacheEntryStatus.mustCompute = st2) ∧
    (mapFind? (((lockerDestroy st hash CacheEntryStatus.mustCompute).buckets
      (getBucketCacheBucketIndex hash)).entriesMap) hash = none) ∧
    (∀ t ∈ e.tileIndices,
      t ∈ ((lockerDestroy st hash CacheEntryStatus.mustCompute).buckets
        (tileIndexOfEncoded t % NATRON_NUM_TILES_PER_BUCKET_FILE)).freeTiles) := by
  obtain ⟨h1, h2⟩ := dealloc_spec st (getBucketCacheBucketIndex hash) hash e hfound
  have hred : lockerDestroy st hash CacheEntryStatus.mustCompute =
      deallocateCacheEntryImpl st (getBucketCacheBucketIndex hash) hash := by
    simp [lockerDestroy, hfound]
  refine ⟨rfl, ?_, ?_, ?_⟩
  · intro st2 hnone
    simp [lockerDestroy, hnone]
  · rw [hred]; exact h1 hnodup
  · rw [hred]; exact h2

/-- Witness for C7 at the concrete state `stWithTile` (entry 7 owns the
tile with tile index 3 of file 0, which belongs to bucket 3). -/
theorem c7_locker_drop_rolls_back_witness :
    (lockerDestroy stWithTile 7 CacheEntryStatus.cached = stWithTile) ∧
    (∀ st2 : CacheState,
      mapFind? ((st2.buckets (getBucketCacheBucketIndex 7)).entriesMap)
        7 = none →
      lockerDestroy st2 7 CacheEntryStatus.mustCompute = st2) ∧
    (mapFind? (((lockerDestroy stWithTile 7
      CacheEntryStatus.mustCompute).buckets
        (getBucketCacheBucketIndex 7)).entriesMap) 7 = none) ∧
    (∀ t ∈ entryWithTile.tileIndices,
      t ∈ ((lockerDestroy stWithTile 7 CacheEntryStatus.mustCompute).buckets
        (tileIndexOfEncoded t % NATRON_NUM_TILES_PER_BUCKET_FILE)).freeTiles) :=
  c7_locker_drop_rolls_back stWithTile 7 entryWithTile (by decide) (by decide)

/-! ## Claim C8 -/

theorem applyPropertyWrites_append (props ws : List (String × Nat))
    (w : String × Nat) :
    applyPropertyWrites props (ws ++ [w]) =
      setIPCProperty (applyPropertyWrites props ws) w.1 w.2 := by
  induction ws generalizing props with
  | nil => rfl
  | cons x rest ih =>
    simp only [List.cons_append, applyPropertyWrites]
    exact ih (setIPCProperty props x.1 x.2)

theorem getIPCProperty_setIPCProperty_self (props : List (String × Nat))
    (name : String) (v : Nat) :
    getIPCProperty (setIPCProperty props name v) name = some v := by
  induction props with
  | nil => simp [setIPCProperty, getIPCProperty]
  | cons p rest ih =>
    obtain ⟨n, v2⟩ := p
    by_cases hn : n = name
    · simp [setIPCProperty, getIPCProperty, hn]
    · simp [setIPCProperty, getIPCProperty, hn, ih]

/-- C8: (i) a successful serialization performs the hash-property write
equal to the entry key as its very last action, so the stored hash
property of the serialized entry equals the key; and (ii) on look-up of a
Ready entry whose stored hash property is absent or differs from the
looked-up key, deserialization reports DeserializationFailed and, under
write rights, the entry is deallocated and the locker is left in
MustCompute (not Cached). -/
theorem c8_hash_property_guards_corruption
    (ws : List (String × Nat)) (key : Nat) (entry : MemorySegmentEntryHeader)
    (st : CacheState) (i hash curMagic : Nat)
    (allowMultipleFetch removeIfOOM : Bool) (timeSpentWaiting timeout : Nat)
    (fromMemSeg : FromMemorySegmentRetCode) (hashOfDeserialized : Nat)
    (e : MemorySegmentEntryHeader)
    (hfound : mapFind? ((st.buckets i).entriesMap) hash = some e)
    (hready : e.status = EntryStatus.ready)
    (hnodup : (((st.buckets i).entriesMap).map Prod.fst).Nodup)
    (hbad : ∀ v, getIPCProperty e.properties kNatronIPCPropertyHash = some v →
      v ≠ hash) :
    ((serializeWrites ws key).getLast? = some (kNatronIPCPropertyHash, key) ∧
     (serializeCacheEntry (some ws) key entry).2 = InsertRetCode.created ∧
     getIPCProperty (serializeCacheEntry (some ws) key entry).1.properties
       kNatronIPCPropertyHash = some key) ∧
    (deserializeEntry e hash true fromMemSeg hashOfDeserialized =
       ShmEntryReadRetCode.deserializationFailed ∧
     (lookupAndSetStatusInternal st i hash curMagic allowMultipleFetch true
       removeIfOOM timeSpentWaiting timeout fromMemSeg
       hashOfDeserialized).2.1 = CacheEntryStatus.mustCompute ∧
     (lookupAndSetStatusInternal st i hash curMagic allowMultipleFetch true
       removeIfOOM timeSpentWaiting timeout fromMemSeg
       hashOfDeserialized).2.2 = LookUpRetCode.notFound ∧
     mapFind? ((((lookupAndSetStatusInternal st i hash curMagic
       allowMultipleFetch true removeIfOOM timeSpentWaiting timeout fromMemSeg
       hashOfDeserialized).1).buckets i).entriesMap) hash = none) := by
  have hdeser : deserializeEntry e hash true fromMemSeg hashOfDeserialized =
      ShmEntryReadRetCode.deserializationFailed := by
    rw [deserializeEntry.eq_def]
    cases hget : getIPCProperty e.properties kNatronIPCPropertyHash with
    | none => rfl
    | some v =>
      exact if_pos (hbad v hget)
  have hread : readFromSharedMemoryEntryImpl st i hash true fromMemSeg
      hashOfDeserialized = (st, ShmEntryReadRetCode.deserializationFailed) := by
    rw [readFromSharedMemoryEntryImpl, hfound]
    simp only [hdeser]
    rw [if_pos (by intro h; cases h)]
  constructor
  · refine ⟨?_, rfl, ?_⟩
    · simp [serializeWrites]
    · show getIPCProperty (applyPropertyWrites entry.properties
        (serializeWrites ws key)) kNatronIPCPropertyHash = some key
      rw [serializeWrites, applyPropertyWrites_append]
      exact getIPCProperty_setIPCProperty_self _ _ _
  · have hc1 : ¬(e.status = EntryStatus.null ∧ (true : Bool) = false) := by
      simp
    have hc2 : ¬(e.status = EntryStatus.pending ∧
        ¬((allowMultipleFetch = false ∧ e.computeThreadMagic = curMagic)) ∧
        (timeout = 0 ∨ timeSpentWaiting < timeout)) := by
      rintro ⟨h, -, -⟩
      rw [hready] at h
      cases h
    have hc3 : ¬(e.status = EntryStatus.pending ∧ (true : Bool) = false) := by
      simp
    obtain ⟨herase, -⟩ := dealloc_spec st i hash e hfound
    refine ⟨hdeser, ?_, ?_, ?_⟩ <;>
      simp only [lookupAndSetStatusInternal, hfound, if_neg hc1, if_neg hc2,
        if_neg hc3, if_pos hready, hread, if_pos (show (true : Bool) = true from rfl)]
    · rfl
    · rfl
    · exact herase hnodup

/-- Witness for C8 at the concrete state `stBadHash` (Ready entry 5 whose
stored hash property is 99). -/
theorem c8_hash_property_guards_corruption_witness :
    (((serializeWrites [("w", 3)] 5).getLast? =
        some (kNatronIPCPropertyHash, 5) ∧
      (serializeCacheEntry (some [("w", 3)]) 5 entryBadHash).2 =
        InsertRetCode.created ∧
      getIPCProperty (serializeCacheEntry (some [("w", 3)]) 5
        entryBadHash).1.properties kNatronIPCPropertyHash = some 5) ∧
     (deserializeEntry entryBadHash 5 true FromMemorySegmentRetCode.ok 5 =
        ShmEntryReadRetCode.deserializationFailed ∧
      (lookupAndSetStatusInternal stBadHash 5 5 7 false true false 0 0
        FromMemorySegmentRetCode.ok 5).2.1 = CacheEntryStatus.mustCompute ∧
      (lookupAndSetStatusInternal stBadHash 5 5 7 false true false 0 0
        FromMemorySegmentRetCode.ok 5).2.2 = LookUpRetCode.notFound ∧
      mapFind? ((((lookupAndSetStatusInternal stBadHash 5 5 7 false true
        false 0 0 FromMemorySegmentRetCode.ok 5).1).buckets 5).entriesMap)
        5 = none)) :=
  c8_hash_property_guards_corruption [("w", 3)] 5 entryBadHash stBadHash 5 5
    7 false false 0 0 FromMemorySegmentRetCode.ok 5 entryBadHash (by decide)
    rfl (by decide) (by decide)

/-! ## Claim C5 -/

theorem mem_foldl_setInsert (ids : List Nat) (init : List Nat) (x : Nat) :
    x ∈ ids.foldl setInsert init ↔ x ∈ init ∨ x ∈ ids := by
  induction ids generalizing init with
  | nil => simp
  | cons y rest ih =>
    rw [List.foldl_cons, ih (setInsert init y), mem_setInsert]
    simp [or_assoc]

theorem mem_seedBucketFreeTiles (b : CacheBucketIPCData)
    (bucketIdx fileIndex x : Nat) :
    x ∈ (seedBucketFreeTiles b bucketIdx fileIndex).freeTiles ↔
      x ∈ b.freeTiles ∨
      ∃ k < NATRON_NUM_TILES_PER_BUCKET_FILE,
        x = encodeTileIndex (bucketIdx * NATRON_NUM_TILES_PER_BUCKET_FILE + k)
          fileIndex := by
  simp only [seedBucketFreeTiles, mem_foldl_setInsert, List.mem_map,
    List.mem_range]
  constructor
  · rintro (h | ⟨k, hk, rfl⟩)
    · exact Or.inl h
    · exact Or.inr ⟨k, hk, rfl⟩
  · rintro (h | ⟨k, hk, rfl⟩)
    · exact Or.inl h
    · exact Or.inr ⟨k, hk, rfl⟩

theorem seedBuckets_buckets_not_mem (st : CacheState) (fileIndex : Nat)
    (l : List Nat) (j : Nat) (hj : j ∉ l) :
    (seedBuckets st fileIndex l).buckets j = st.buckets j := by
  induction l generalizing st with
  | nil => rfl
  | cons b rest ih =>
    rw [seedBuckets, ih _ (fun h => hj (List.mem_cons_of_mem b h))]
    exact updBucket_ne _ _ _ _ (fun h => hj (h ▸ List.mem_cons_self b rest))

theorem seedBuckets_buckets_mem (st : CacheState) (fileIndex : Nat)
    (l : List Nat) (j : Nat) (hnd : l.Nodup) (hj : j ∈ l) :
    (seedBuckets st fileIndex l).buckets j =
      seedBucketFreeTiles (st.buckets j) j fileIndex := by
  induction l generalizing st with
  | nil => cases hj
  | cons b rest ih =>
    rw [List.nodup_cons] at hnd
    rcases List.mem_cons.1 hj with rfl | hmem
    · rw [seedBuckets, seedBuckets_buckets_not_mem _ _ _ _ hnd.1]
      simp only [updBucket_self]
    · have hne : j ≠ b := fun h => hnd.1 (h ▸ hmem)
      rw [seedBuckets, ih _ hnd.2 hmem]
      simp only [updBucket_ne _ _ _ _ hne]

/-- C5, amended: tiles are tracked in one of the free sets or an entry\'s
tile list, but the "owning shard" differs between the two directions:
(i) seeding a newly created storage file gives bucket `b` exactly the tiles
with tile index in `[b * 256, (b + 1) * 256)` — contiguous blocks of 256,
i.e. by `tile_index / 256`, an even split but **not** by
`tile_index mod 256`; (ii) freeing a tile (entry deallocation) inserts it
into the free set of bucket `tile_index mod 256`. -/
theorem c5_tile_seeding_blocks_and_freeing_mod (st : CacheState)
    (hu : st.useTileStorage = true) (b : Nat)
    (hb : b < NATRON_CACHE_BUCKETS_COUNT) (t : Nat) (st2 : CacheState)
    (i hash : Nat) (e : MemorySegmentEntryHeader)
    (hfound : mapFind? ((st2.buckets i).entriesMap) hash = some e)
    (t2 : Nat) (ht2 : t2 ∈ e.tileIndices) :
    (t ∈ ((createTileStorage st).buckets b).freeTiles ↔
      t ∈ (st.buckets b).freeTiles ∨
      ∃ k < NATRON_NUM_TILES_PER_BUCKET_FILE,
        t = encodeTileIndex (b * NATRON_NUM_TILES_PER_BUCKET_FILE + k)
          st.tilesStorageCount) ∧
    t2 ∈ ((deallocateCacheEntryImpl st2 i hash).buckets
      (tileIndexOfEncoded t2 % NATRON_NUM_TILES_PER_BUCKET_FILE)).freeTiles := by
  constructor
  · have huf : ¬(st.useTileStorage = false) := by rw [hu]; intro h; cases h
    rw [createTileStorage, if_neg huf]
    rw [seedBuckets_buckets_mem _ _ _ b (List.nodup_range _)
      (List.mem_range.2 hb)]
    exact mem_seedBucketFreeTiles _ b st.tilesStorageCount t
  · exact (dealloc_spec st2 i hash e hfound).2 t2 ht2

/-- C5, counterexample: seeding the first storage file of an empty cache
puts the tile id `encodeTileIndex 1 0` (tile index 1, whose owning shard by
the claim is `1 mod 256 = 1`) into the free set of bucket **0**, and not
into the free set of bucket 1 — seeding does not insert tile ids into the
free set of their `tile_index mod 256` shard. -/
theorem c5_counterexample :
    tileIndexOfEncoded (encodeTileIndex 1 0) %
      NATRON_NUM_TILES_PER_BUCKET_FILE = 1 ∧
    encodeTileIndex 1 0 ∈
      ((createTileStorage emptyCacheState).buckets 0).freeTiles ∧
    encodeTileIndex 1 0 ∉
      ((createTileStorage emptyCacheState).buckets 1).freeTiles := by
  have huf : ¬(emptyCacheState.useTileStorage = false) := by decide
  have h0 : ((createTileStorage emptyCacheState).buckets 0).freeTiles =
      (seedBucketFreeTiles emptyBucket 0 0).freeTiles := by
    rw [createTileStorage, if_neg huf,
      seedBuckets_buckets_mem _ _ _ 0 (List.nodup_range _)
        (List.mem_range.2 (by norm_num [NATRON_CACHE_BUCKETS_COUNT]))]
    rfl
  have h1 : ((createTileStorage emptyCacheState).buckets 1).freeTiles =
      (seedBucketFreeTiles emptyBucket 1 0).freeTiles := by
    rw [createTileStorage, if_neg huf,
      seedBuckets_buckets_mem _ _ _ 1 (List.nodup_range _)
        (List.mem_range.2 (by norm_num [NATRON_CACHE_BUCKETS_COUNT]))]
    rfl
  refine ⟨by decide, ?_, ?_⟩
  · rw [h0, mem_seedBucketFreeTiles]
    right
    exact ⟨1, by norm_num [NATRON_NUM_TILES_PER_BUCKET_FILE], by norm_num⟩
  · rw [h1, mem_seedBucketFreeTiles]
    rintro (h | ⟨k, hk, he⟩)
    · simp [emptyBucket] at h
    · have h2 : encodeTileIndex 1 0 = 2 ^ 32 := by decide
      have h3 : encodeTileIndex (1 * NATRON_NUM_TILES_PER_BUCKET_FILE + k) 0 =
          (256 + k) * 2 ^ 32 := by
        rw [encodeTileIndex, Nat.shiftLeft_eq, Nat.or_zero]
        norm_num [NATRON_NUM_TILES_PER_BUCKET_FILE]
      rw [h2, h3] at he
      have : 1 * 2 ^ 32 = (256 + k) * 2 ^ 32 := by rw [one_mul]; exact he
      have := Nat.eq_of_mul_eq_mul_right (by norm_num : 0 < 2 ^ 32) this
      omega

/-- Witness for C5 at the concrete state `emptyCacheState` (seeding) and
`stWithTile` (freeing the tile of entry 7). -/
theorem c5_tile_seeding_blocks_and_freeing_mod_witness :
    ((encodeTileIndex 1 0) ∈
      ((createTileStorage emptyCacheState).buckets 0).freeTiles ↔
      (encodeTileIndex 1 0) ∈ (emptyCacheState.buckets 0).freeTiles ∨
      ∃ k < NATRON_NUM_TILES_PER_BUCKET_FILE,
        encodeTileIndex 1 0 =
          encodeTileIndex (0 * NATRON_NUM_TILES_PER_BUCKET_FILE + k)
            emptyCacheState.tilesStorageCount) ∧
    (encodeTileIndex 3 0) ∈ ((deallocateCacheEntryImpl stWithTile 7
      7).buckets (tileIndexOfEncoded (encodeTileIndex 3 0) %
        NATRON_NUM_TILES_PER_BUCKET_FILE)).freeTiles :=
  c5_tile_seeding_blocks_and_freeing_mod emptyCacheState rfl 0
    (by norm_num [NATRON_CACHE_BUCKETS_COUNT]) (encodeTileIndex 1 0)
    stWithTile 7 7 entryWithTile (by decide) (encodeTileIndex 3 0)
    (by decide)

/-! ## Claim C9 -/

theorem race_lookup_absent (st : CacheState) (hash m ts tmo : Nat)
    (hfound : mapFind? ((st.buckets
      (getBucketCacheBucketIndex hash)).entriesMap) hash = none) :
    (lookupAndSetStatus st hash m false ts tmo 100 "plugin" true
      FromMemorySegmentRetCode.ok hash).2 = CacheEntryStatus.mustCompute ∧
    ∃ e2, mapFind? ((((lookupAndSetStatus st hash m false ts tmo 100 "plugin"
      true FromMemorySegmentRetCode.ok hash).1).buckets
        (getBucketCacheBucketIndex hash)).entriesMap) hash = some e2 ∧
      e2.status = EntryStatus.pending ∧ e2.computeThreadMagic = m := by
  simp only [lookupAndSetStatus, lookupAndSetStatusInternal, hfound,
    lookupAndCreate, constructCacheEntry]
  norm_num [updBucket_self, mapFind?]

theorem race_lookup_pending (st : CacheState) (hash m ts tmo : Nat)
    (e : MemorySegmentEntryHeader)
    (hfound : mapFind? ((st.buckets
      (getBucketCacheBucketIndex hash)).entriesMap) hash = some e)
    (hpend : e.status = EntryStatus.pending)
    (hmag : e.computeThreadMagic ≠ m) (htmo : tmo = 0) :
    lookupAndSetStatus st hash m false ts tmo 100 "plugin" true
      FromMemorySegmentRetCode.ok hash =
      (st, CacheEntryStatus.computationPending) := by
  subst htmo
  simp [lookupAndSetStatus, lookupAndSetStatusInternal, hfound, hpend, hmag]

theorem readFromShared_ok_state (st : CacheState) (i hash : Nat)
    (e : MemorySegmentEntryHeader)
    (hfound : mapFind? ((st.buckets i).entriesMap) hash = some e)
    (hprop : getIPCProperty e.properties kNatronIPCPropertyHash = some hash) :
    (readFromSharedMemoryEntryImpl st i hash false
      FromMemorySegmentRetCode.ok hash).2 = ShmEntryReadRetCode.ok ∧
    ∀ h2, (mapFind? ((((readFromSharedMemoryEntryImpl st i hash false
      FromMemorySegmentRetCode.ok hash).1).buckets i).entriesMap) h2).map
        entryCore = (mapFind? ((st.buckets i).entriesMap) h2).map entryCore := by
  have hdeser : deserializeEntry e hash false FromMemorySegmentRetCode.ok
      hash = ShmEntryReadRetCode.ok := by
    rw [deserializeEntry.eq_def, hprop]
    simp
  simp only [readFromSharedMemoryEntryImpl, hfound, hdeser]
  rw [if_neg (by simp : ¬(ShmEntryReadRetCode.ok ≠ ShmEntryReadRetCode.ok))]
  by_cases hb : (st.buckets i).lruListBack = some hash
  · rw [if_pos hb]
    exact ⟨rfl, fun h2 => rfl⟩
  · rw [if_neg hb]
    refine ⟨rfl, fun h2 => ?_⟩
    simp only [updBucket_self]
    obtain ⟨-, cd, -, -, -, -⟩ :=
      nodeOpOnly_disconnect (st.buckets i) hash
    obtain ⟨-, ci2, -, -, -, -⟩ :=
      nodeOpOnly_insertNode (disconnectLinkedListNode (st.buckets i) hash)
        hash ((disconnectLinkedListNode (st.buckets i) hash).lruListBack) none
    exact (ci2 h2).trans (cd h2)

theorem race_lookup_ready (st : CacheState) (hash m ts tmo : Nat)
    (e : MemorySegmentEntryHeader)
    (hfound : mapFind? ((st.buckets
      (getBucketCacheBucketIndex hash)).entriesMap) hash = some e)
    (hready : e.status = EntryStatus.ready)
    (hprop : getIPCProperty e.properties kNatronIPCPropertyHash = some hash) :
    (lookupAndSetStatus st hash m false ts tmo 100 "plugin" true
      FromMemorySegmentRetCode.ok hash).2 = CacheEntryStatus.cached ∧
    (mapFind? ((((lookupAndSetStatus st hash m false ts tmo 100 "plugin" true
      FromMemorySegmentRetCode.ok hash).1).buckets
        (getBucketCacheBucketIndex hash)).entriesMap) hash).map entryCore =
      some (entryCore e) := by
  obtain ⟨hr2, hcore⟩ := readFromShared_ok_state st
    (getBucketCacheBucketIndex hash) hash e hfound hprop
  cases hres : readFromSharedMemoryEntryImpl st
      (getBucketCacheBucketIndex hash) hash false
      FromMemorySegmentRetCode.ok hash with
  | mk st2 ret =>
    rw [hres] at hr2 hcore
    simp only at hr2 hcore
    subst hr2
    have hgoal : (lookupAndSetStatus st hash m false ts tmo 100 "plugin" true
        FromMemorySegmentRetCode.ok hash) = (st2, CacheEntryStatus.cached) := by
      simp [lookupAndSetStatus, lookupAndSetStatusInternal, hfound, hready,
        hres]
    rw [hgoal]
    refine ⟨rfl, ?_⟩
    rw [hcore hash, hfound]
    rfl

theorem insertFinalize_find (b : CacheBucketIPCData) (hash : Nat)
    (e e1 : MemorySegmentEntryHeader)
    (hfound : mapFind? b.entriesMap hash = some e) :
    ∃ e2, mapFind? (insertFinalize b hash e1).entriesMap hash = some e2 ∧
      e2.status = EntryStatus.ready ∧ e2.computeThreadMagic = 0 ∧
      e2.properties = e1.properties := by
  have h1 : mapFind? (mapSet b.entriesMap hash e1) hash = some e1 := by
    rw [mapFind?_mapSet, if_pos rfl, hfound]
    rfl
  have h3 : mapFind? (mapSet (mapSet b.entriesMap hash e1) hash
      ({ e1 with lruNode := { prev := none, next := none, hash := hash } }))
      hash = some { e1 with
        lruNode := { prev := none, next := none, hash := hash } } := by
    rw [mapFind?_mapSet, if_pos rfl, h1]
    rfl
  simp only [insertFinalize]
  cases hback : b.lruListBack with
  | none =>
    simp only [h3]
    refine ⟨{ e1 with lruNode := { prev := none, next := none, hash := hash }, computeThreadMagic := 0, status := EntryStatus.ready }, ?_, rfl, rfl, rfl⟩
    simp only [mapFind?_mapSet, if_true, hfound]
    rfl
  | some back =>
    obtain ⟨-, ci2, -, -, -, -⟩ := nodeOpOnly_insertNode
      ({ lruListFront := b.lruListFront, lruListBack := some back,
          size := addU64 b.size e1.size,
          entriesMap := mapSet (mapSet b.entriesMap hash e1) hash
            ({ e1 with
                lruNode := { prev := none, next := none, hash := hash } }),
          freeTiles := b.freeTiles })
      hash (some back) none
    have hc := ci2 hash
    rw [h3] at hc
    cases hfind4 : mapFind? (insertLinkedListNode
        ({ lruListFront := b.lruListFront, lruListBack := some back,
            size := addU64 b.size e1.size,
            entriesMap := mapSet (mapSet b.entriesMap hash e1) hash
              ({ e1 with
                  lruNode := { prev := none, next := none, hash := hash } }),
            freeTiles := b.freeTiles })
        hash (some back) none).entriesMap hash with
    | none =>
      rw [hfind4] at hc
      cases hc
    | some e4 =>
      rw [hfind4] at hc
      have hc4 : entryCore e4 = entryCore
          { e1 with lruNode := { prev := none, next := none, hash := hash } } := by
        have := hc
        simp only [Option.map_some] at this
        exact Option.some.inj this
      simp only [hfind4]
      refine ⟨{ e4 with computeThreadMagic := 0, status := EntryStatus.ready }, ?_, rfl, rfl, ?_⟩
      · simp only [mapFind?_mapSet, if_true, hfind4]
        rfl
      · exact congrArg (fun p => p.2.2) hc4

theorem race_insert_pending (st : CacheState) (i hash : Nat)
    (e : MemorySegmentEntryHeader) (ls : CacheEntryStatus)
    (hfound : mapFind? ((st.buckets i).entriesMap) hash = some e)
    (hmagic : e.computeThreadMagic ≠ 0) :
    (insertInternal st i hash (some []) ls).2.1 = CacheEntryStatus.cached ∧
    ∃ e2, mapFind? ((((insertInternal st i hash (some []) ls).1).buckets
      i).entriesMap) hash = some e2 ∧
      e2.status = EntryStatus.ready ∧ e2.computeThreadMagic = 0 ∧
      getIPCProperty e2.properties kNatronIPCPropertyHash = some hash := by
  have hser : serializeCacheEntry (some []) hash e = ({ e with properties := setIPCProperty e.properties kNatronIPCPropertyHash hash }, InsertRetCode.created) := rfl
  obtain ⟨e2, hfind2, hst2, hm2, hp2⟩ := insertFinalize_find (st.buckets i) hash e { e with properties := setIPCProperty e.properties kNatronIPCPropertyHash hash } hfound
  simp only [insertInternal, hfound, if_neg hmagic, hser]
  refine ⟨trivial, e2, ?_, hst2, hm2, ?_⟩
  · rw [updBucket_self]
    exact hfind2
  · rw [hp2]
    exact getIPCProperty_setIPCProperty_self _ _ _

/-- Pulling an index out of a three-element list literal. -/
theorem getElem?_cases3 {A : Type} (a b c : A) (j : Nat) (x : A)
    (h : [a, b, c][j]? = some x) :
    (j = 0 ∧ x = a) ∨ (j = 1 ∧ x = b) ∨ (j = 2 ∧ x = c) := by
  match j with
  | 0 => exact Or.inl ⟨rfl, (Option.some.inj h).symm⟩
  | 1 => exact Or.inr (Or.inl ⟨rfl, (Option.some.inj h).symm⟩)
  | 2 => exact Or.inr (Or.inr ⟨rfl, (Option.some.inj h).symm⟩)
  | n + 3 => simp at h

/-- Updating the status of one caller either returns the updated caller at
its own index or leaves the slot unchanged. -/
theorem getElem?_set_status (l : List RaceCaller) (i j : Nat)
    (c y : RaceCaller) (s2 : Option CacheEntryStatus)
    (hc : l[i]? = some c)
    (h : (l.set i { c with status := s2 })[j]? = some y) :
    (j = i ∧ y = { c with status := s2 } ∧ l[j]? = some c) ∨
    (j ≠ i ∧ l[j]? = some y) := by
  by_cases hji : j = i
  · subst hji
    rw [List.getElem?_set_self', hc] at h
    exact Or.inl ⟨rfl, (Option.some.inj h).symm, hc⟩
  · rw [List.getElem?_set_ne (Ne.symm hji)] at h
    exact Or.inr ⟨hji, h⟩

/-- Updating one caller's locker status preserves distinctness of the
thread magics. -/
theorem magicsOk_set (l : List RaceCaller) (i : Nat) (c : RaceCaller)
    (s2 : Option CacheEntryStatus) (hc : l[i]? = some c)
    (hm : magicsOk l) :
    magicsOk (l.set i { c with status := s2 }) := by
  constructor
  · intro j cj hj
    rcases getElem?_set_status l i j c cj s2 hc hj with ⟨-, rfl, hl⟩ | ⟨-, hl⟩
    · exact hm.1 j c hl
    · exact hm.1 j cj hl
  · intro j k cj ck hj hk hmagic
    rcases getElem?_set_status l i j c cj s2 hc hj with
        ⟨hji, rfl, hlj⟩ | ⟨hji, hlj⟩ <;>
      rcases getElem?_set_status l i k c ck s2 hc hk with
        ⟨hki, rfl, hlk⟩ | ⟨hki, hlk⟩
    · exact hji.trans hki.symm
    · exact hm.2 j k c ck hlj hlk hmagic
    · exact hm.2 j k cj c hlj hlk hmagic
    · exact hm.2 j k cj ck hlj hlk hmagic

/-- A race step never changes which magic a caller slot holds, so the
distinct-magics side condition is invariant. -/
theorem raceStep_magicsOk (hash : Nat) (s : RaceState) (ev : RaceEvent)
    (hm : magicsOk s.callers) : magicsOk (raceStep hash s ev).callers := by
  cases ev with
  | look ci ts tmo =>
    simp only [raceStep]
    cases hci : s.callers[ci]? with
    | none => exact hm
    | some c =>
      simp only []
      by_cases hg : c.status = none ∨
          c.status = some CacheEntryStatus.computationPending
      · rw [if_pos hg]
        exact magicsOk_set s.callers ci c _ hci hm
      · rw [if_neg hg]
        exact hm
  | insert ci =>
    simp only [raceStep]
    cases hci : s.callers[ci]? with
    | none => exact hm
    | some c =>
      simp only []
      by_cases hg : c.status = some CacheEntryStatus.mustCompute
      · rw [if_pos hg]
        exact magicsOk_set s.callers ci c _ hci hm
      · rw [if_neg hg]
        exact hm

/-- One look-up step with `timeout = 0` preserves the mutual-exclusion
invariant: an absent entry is reserved by the looker (which becomes the
unique MustCompute holder), a Pending entry parks the looker in
ComputationPending, a Ready entry is deserialized without changing any
entry core. -/
theorem raceStep_look_inv (hash : Nat) (s : RaceState) (ci ts : Nat)
    (hm : magicsOk s.callers) (hinv : raceInv hash s) :
    raceInv hash (raceStep hash s (RaceEvent.look ci ts 0)) := by
  simp only [raceStep]
  cases hci : s.callers[ci]? with
  | none => exact hinv
  | some c =>
    simp only []
    by_cases hg : c.status = none ∨
        c.status = some CacheEntryStatus.computationPending
    case neg =>
      rw [if_neg hg]
      exact hinv
    case pos =>
    rw [if_pos hg]
    cases hfound : mapFind? ((s.cache.buckets
        (getBucketCacheBucketIndex hash)).entriesMap) hash with
    | none =>
      have hpre : ∀ (j : Nat) (cj : RaceCaller),
          s.callers[j]? = some cj → cj.status = none := by
        unfold raceInv at hinv
        simpa only [hfound] using hinv
      obtain ⟨hret, e2, he2, hst2, hmag2⟩ :=
        race_lookup_absent s.cache hash c.magic ts 0 hfound
      unfold raceInv
      simp only [he2, hst2, hret]
      refine ⟨ci, { c with status := some CacheEntryStatus.mustCompute },
        ?_, rfl, hmag2.symm, ?_⟩
      · rw [List.getElem?_set_self', hci]
        rfl
      · intro j cj hjne hj
        rw [List.getElem?_set_ne (Ne.symm hjne)] at hj
        exact Or.inl (hpre j cj hj)
    | some e =>
      cases hst : e.status with
      | null =>
        exfalso
        unfold raceInv at hinv
        simp only [hfound, hst] at hinv
      | pending =>
        unfold raceInv at hinv
        simp only [hfound, hst] at hinv
        obtain ⟨oi, cO, hoi, hosts, homag, hothers⟩ := hinv
        have hcine : ci ≠ oi := by
          intro heq
          subst heq
          rw [hci] at hoi
          obtain rfl := Option.some.inj hoi
          rcases hg with h1 | h1 <;> simp [h1] at hosts
        have hemag : e.computeThreadMagic ≠ c.magic := fun heq =>
          hcine (hm.2 ci oi c cO hci hoi ((homag.trans heq).symm))
        have hstep := race_lookup_pending s.cache hash c.magic ts 0 e
          hfound hst hemag rfl
        simp only [hstep]
        unfold raceInv
        simp only [hfound, hst]
        refine ⟨oi, cO, ?_, hosts, homag, ?_⟩
        · rw [List.getElem?_set_ne (Ne.symm (fun h => hcine h.symm))]
          exact hoi
        · intro j cj hjne hj
          by_cases hjci : j = ci
          · subst hjci
            rw [List.getElem?_set_self', hci] at hj
            obtain rfl := Option.some.inj hj
            exact Or.inr rfl
          · rw [List.getElem?_set_ne (Ne.symm hjci)] at hj
            exact hothers j cj hjne hj
      | ready =>
        unfold raceInv at hinv
        simp only [hfound, hst] at hinv
        obtain ⟨hm0, hprop, hnomc⟩ := hinv
        obtain ⟨hret, hcore⟩ := race_lookup_ready s.cache hash c.magic ts 0 e
          hfound hst hprop
        cases hfind2 : mapFind? ((((lookupAndSetStatus s.cache hash c.magic
            false ts 0 100 "plugin" true FromMemorySegmentRetCode.ok
            hash).1).buckets (getBucketCacheBucketIndex hash)).entriesMap)
            hash with
        | none =>
          rw [hfind2] at hcore
          cases hcore
        | some e2 =>
          rw [hfind2] at hcore
          have hcore2 : entryCore e2 = entryCore e := Option.some.inj hcore
          have hst2 : e2.status = EntryStatus.ready := by
            have h1 := congrArg (fun p => p.1) hcore2
            simpa [entryCore, hst] using h1
          have hm02 : e2.computeThreadMagic = 0 := by
            have h1 := congrArg (fun p => p.2.1) hcore2
            simpa [entryCore, hm0] using h1
          have hprop2 : e2.properties = e.properties :=
            congrArg (fun p => p.2.2) hcore2
          unfold raceInv
          simp only [hfind2, hst2, hret]
          refine ⟨hm02, ?_, ?_⟩
          · rw [hprop2]
            exact hprop
          · intro j cj hj
            by_cases hjci : j = ci
            · subst hjci
              rw [List.getElem?_set_self', hci] at hj
              simp only [Option.map_eq_map, Option.map_some', Function.const_apply] at hj
              obtain rfl := Option.some.inj hj
              intro hcon
              simp at hcon
            · rw [List.getElem?_set_ne (Ne.symm hjci)] at hj
              exact hnomc j cj hj

/-- One insert step preserves the mutual-exclusion invariant: the protocol
guard only lets the unique MustCompute holder insert, and the insertion
marks the entry Ready with the magic cleared and the looked-up hash stored,
moving the inserter to Cached. -/
theorem raceStep_insert_inv (hash : Nat) (s : RaceState) (ci : Nat)
    (hm : magicsOk s.callers) (hinv : raceInv hash s) :
    raceInv hash (raceStep hash s (RaceEvent.insert ci)) := by
  simp only [raceStep]
  cases hci : s.callers[ci]? with
  | none => exact hinv
  | some c =>
    simp only []
    by_cases hg : c.status = some CacheEntryStatus.mustCompute
    case neg =>
      rw [if_neg hg]
      exact hinv
    case pos =>
    rw [if_pos hg]
    cases hfound : mapFind? ((s.cache.buckets
        (getBucketCacheBucketIndex hash)).entriesMap) hash with
    | none =>
      exfalso
      unfold raceInv at hinv
      simp only [hfound] at hinv
      have h1 := hinv ci c hci
      rw [h1] at hg
      cases hg
    | some e =>
      cases hst : e.status with
      | null =>
        exfalso
        unfold raceInv at hinv
        simp only [hfound, hst] at hinv
      | ready =>
        exfalso
        unfold raceInv at hinv
        simp only [hfound, hst] at hinv
        exact hinv.2.2 ci c hci hg
      | pending =>
        unfold raceInv at hinv
        simp only [hfound, hst] at hinv
        obtain ⟨oi, cO, hoi, hosts, homag, hothers⟩ := hinv
        have hcieq : ci = oi := by
          by_contra hne
          rcases hothers ci c hne hci with h1 | h1 <;> simp [h1] at hg
        subst hcieq
        rw [hci] at hoi
        obtain rfl := Option.some.inj hoi
        have hne0 : e.computeThreadMagic ≠ 0 := by
          rw [← homag]
          exact hm.1 ci c hci
        obtain ⟨hret, e2, he2, hst2, hm02, hprop2⟩ :=
          race_insert_pending s.cache (getBucketCacheBucketIndex hash) hash e
            CacheEntryStatus.mustCompute hfound hne0
        unfold raceInv
        simp only [he2, hst2, hret]
        refine ⟨hm02, hprop2, ?_⟩
        intro j cj hj
        by_cases hjci : j = ci
        · subst hjci
          rw [List.getElem?_set_self', hci] at hj
          simp only [Option.map_eq_map, Option.map_some', Function.const_apply] at hj
          obtain rfl := Option.some.inj hj
          intro hcon
          simp at hcon
        · rw [List.getElem?_set_ne (Ne.symm hjci)] at hj
          rcases hothers j cj hjci hj with h1 | h1 <;> simp [h1]

/-- Any protocol-respecting step without a takeover preserves the
invariant. -/
theorem raceStep_raceInv (hash : Nat) (s : RaceState) (ev : RaceEvent)
    (hm : magicsOk s.callers) (hinv : raceInv hash s)
    (hnt : noTakeoverEvent ev) : raceInv hash (raceStep hash s ev) := by
  cases ev with
  | look ci ts tmo =>
    have h0 : tmo = 0 := hnt
    subst h0
    exact raceStep_look_inv hash s ci ts hm hinv
  | insert ci => exact raceStep_insert_inv hash s ci hm hinv

/-- Running any takeover-free event list from an invariant state keeps the
invariant (and the distinct magics). -/
theorem runRace_inv (hash : Nat) (evs : List RaceEvent) (s : RaceState)
    (hm : magicsOk s.callers) (hinv : raceInv hash s)
    (hnt : ∀ ev ∈ evs, noTakeoverEvent ev) :
    raceInv hash (runRace hash s evs) ∧
      magicsOk (runRace hash s evs).callers := by
  induction evs generalizing s with
  | nil => exact ⟨hinv, hm⟩
  | cons ev rest ih =>
    simp only [runRace]
    exact ih (raceStep hash s ev) (raceStep_magicsOk hash s ev hm)
      (raceStep_raceInv hash s ev hm hinv (hnt ev (List.mem_cons_self ev rest)))
      (fun e he => hnt e (List.mem_cons_of_mem ev he))

/-- The invariant entails mutual exclusion of MustCompute. -/
theorem raceInv_mutualExclusion (hash : Nat) (s : RaceState)
    (hinv : raceInv hash s) : mutualExclusion s := by
  intro j k cj ck hj hk hcj hck
  unfold raceInv at hinv
  cases hfound : mapFind? ((s.cache.buckets
      (getBucketCacheBucketIndex hash)).entriesMap) hash with
  | none =>
    simp only [hfound] at hinv
    rw [hinv j cj hj] at hcj
    cases hcj
  | some e =>
    cases hst : e.status with
    | null =>
      simp only [hfound, hst] at hinv
    | ready =>
      simp only [hfound, hst] at hinv
      exact absurd hcj (hinv.2.2 j cj hj)
    | pending =>
      simp only [hfound, hst] at hinv
      obtain ⟨oi, cO, hoi, hosts, homag, hothers⟩ := hinv
      have hjoi : j = oi := by
        by_contra hne
        rcases hothers j cj hne hj with h1 | h1 <;> simp [h1] at hcj
      have hkoi : k = oi := by
        by_contra hne
        rcases hothers k ck hne hk with h1 | h1 <;> simp [h1] at hck
      exact hjoi.trans hkoi.symm

/-- C9: Mutual exclusion of the per-key locker protocol, amended to exclude
the takeover path. For any number of concurrent callers on the same key —
pairwise-distinct nonzero thread magics, none having looked up yet — and any
interleaving of protocol-respecting look-ups and insertions in which no
look-up uses an expired wait timeout, at every point at most one caller
holds MustCompute: an absent entry makes its first looker the unique
MustCompute holder, every other looker parks in ComputationPending, and
once the holder inserts, the entry is Ready with its hash property stored
and every later looker observes Cached. (The original claim's takeover
clause — "exactly one other takes over" on timeout — is false; see the
counterexample.) -/
theorem c9_mutual_exclusion_without_takeover (hash : Nat)
    (callers0 : List RaceCaller) (evs : List RaceEvent)
    (hm : magicsOk callers0)
    (hfresh : ∀ (j : Nat) (cj : RaceCaller), callers0[j]? = some cj →
      cj.status = none)
    (hnt : ∀ ev ∈ evs, noTakeoverEvent ev) :
    mutualExclusion (runRace hash
      { cache := emptyCacheState, callers := callers0 } evs) := by
  apply raceInv_mutualExclusion hash
  refine (runRace_inv hash evs
    { cache := emptyCacheState, callers := callers0 } hm ?_ hnt).1
  have h0 : mapFind? ((emptyCacheState.buckets
      (getBucketCacheBucketIndex hash)).entriesMap) hash = none := rfl
  unfold raceInv
  rw [h0]
  exact hfresh

/-- C9 witness: three callers race on key 5 without timeouts — two look-ups,
an insert by the winner, then a re-look by a parked caller — and MustCompute
is mutually exclusive throughout the final state. -/
theorem c9_mutual_exclusion_without_takeover_witness :
    mutualExclusion (runRace 5
      { cache := emptyCacheState, callers := threeCallers }
      [RaceEvent.look 0 0 0, RaceEvent.look 1 0 0, RaceEvent.insert 0,
        RaceEvent.look 1 0 0]) := by
  apply c9_mutual_exclusion_without_takeover
  · constructor
    · intro j cj hj
      rcases getElem?_cases3 _ _ _ j cj hj with ⟨-, rfl⟩ | ⟨-, rfl⟩ | ⟨-, rfl⟩ <;>
        decide
    · intro j k cj ck hj hk hmagic
      rcases getElem?_cases3 _ _ _ j cj hj with
          ⟨rfl, rfl⟩ | ⟨rfl, rfl⟩ | ⟨rfl, rfl⟩ <;>
        rcases getElem?_cases3 _ _ _ k ck hk with
            ⟨rfl, rfl⟩ | ⟨rfl, rfl⟩ | ⟨rfl, rfl⟩ <;>
          first
            | rfl
            | exact absurd hmagic (by decide)
  · intro j cj hj
    rcases getElem?_cases3 _ _ _ j cj hj with ⟨-, rfl⟩ | ⟨-, rfl⟩ | ⟨-, rfl⟩ <;>
      rfl
  · intro ev hev
    simp only [List.mem_cons, List.not_mem_nil, or_false] at hev
    rcases hev with rfl | rfl | rfl | rfl
    · exact rfl
    · exact rfl
    · exact trivial
    · exact rfl

/-- C9 counterexample to the original claim's takeover clause: three callers
race on key 5; caller 0 reserves the entry, callers 1 and 2 park, then both
re-poll having waited 100 against a timeout of 10. The code promotes every
timed-out waiter (Cache.cpp:2076-2082 runs for each caller holding the
bucket lock in turn), so all three callers end in MustCompute at once —
not "exactly one other takes over" — and mutual exclusion is violated. -/
theorem c9_counterexample :
    (runRace 5 { cache := emptyCacheState, callers := threeCallers }
        takeoverTrace).callers.map (fun c => c.status) =
      [some CacheEntryStatus.mustCompute, some CacheEntryStatus.mustCompute,
        some CacheEntryStatus.mustCompute] ∧
      ¬ mutualExclusion (runRace 5
        { cache := emptyCacheState, callers := threeCallers } takeoverTrace) := by
  constructor
  · decide
  · intro h
    have h01 := h 0 1 { magic := 1, status := some CacheEntryStatus.mustCompute }
      { magic := 2, status := some CacheEntryStatus.mustCompute }
      (by decide) (by decide) rfl rfl
    exact absurd h01 (by decide)

end NatronCache
